import Mathlib

/-!
Bézier tessellation, colour-ID picking and orbit camera.

A shallow embedding of `src/Main3.1.cpp` (namespace `Main3_1`) and of
`src/main_part2.cpp` (namespace `MainPart2`).

Modelling conventions.

* `float` values are elements of a linearly ordered field `α` (exact arithmetic);
  the definitions are polymorphic, so they run over `ℚ` and are reasoned about
  over `ℝ` where a square root is needed.  `sqrtf`, `cosf` and `sinf` are
  parameters of the functions that call them.
* `int` values are elements of `ℤ`; `std::vector<T>` is `List T`, `push_back`
  appends at the end, and `v[k]` is `List.getD` with the default-constructed
  element.
* `unsigned char` values are elements of `Fin 256`.
* OpenGL calls that only change GL state are recorded as a list of commands;
  what `glReadPixels` delivers is a parameter of `pickObject`.
-/

namespace Main3_1

/-- The `struct Point3D` of `Main3.1.cpp`. -/
structure Point3D (α : Type) where
  x : α
  y : α
  z : α
deriving DecidableEq

/-- The default constructor `Point3D()`, all coordinates zero. -/
def Point3D.zero {α : Type} [Zero α] : Point3D α := ⟨0, 0, 0⟩

/-- The data members of `class BezierPatch`. -/
structure BezierPatch (α : Type) where
  controlPoints : List (Point3D α)
  vertices : List (Point3D α)
  normals : List (Point3D α)
  texCoords : List α
  indices : List Int
  resolution : Int

section Patch

variable {α : Type} [LinearOrderedField α]

/-- One pass of the loop body of `bernstein`:
`binomial *= float(n - j + 1) / float(j)`. -/
def bernsteinStep (n : Int) (binomial : α) (j : Nat) : α :=
  binomial * ((((n - (j : Int) + 1 : Int)) : α) / (((j : Int)) : α))

/-- The function `BezierPatch::bernstein(i, n, t)`: the loop runs `j = 1, …, i`
and the result is `binomial * powf(t, i) * powf(1 - t, n - i)`. -/
def bernstein (i n : Int) (t : α) : α :=
  let binomial := (List.range' 1 i.toNat).foldl (bernsteinStep n) (1 : α)
  binomial * t ^ i * (1 - t) ^ (n - i)

/-- The body of the inner loop of `evaluate`: one control point is accumulated. -/
def evaluateStep (controlPoints : List (Point3D α)) (u v : α) (i : Nat)
    (result : Point3D α) (j : Nat) : Point3D α :=
  let bu := bernstein (i : Int) 3 u
  let bv := bernstein (j : Int) 3 v
  let index := i * 4 + j
  { x := result.x + (controlPoints.getD index Point3D.zero).x * bu * bv
    y := result.y + (controlPoints.getD index Point3D.zero).y * bu * bv
    z := result.z + (controlPoints.getD index Point3D.zero).z * bu * bv }

/-- The function `BezierPatch::evaluate(u, v)`, reading only `controlPoints`. -/
def evaluatePoints (controlPoints : List (Point3D α)) (u v : α) : Point3D α :=
  (List.range 4).foldl
    (fun result i => (List.range 4).foldl (evaluateStep controlPoints u v i) result)
    ⟨0, 0, 0⟩

/-- The method `BezierPatch::evaluate(u, v)`. -/
def BezierPatch.evaluate (p : BezierPatch α) (u v : α) : Point3D α :=
  evaluatePoints p.controlPoints u v

/-- The cross product computed in `calculateNormal` from `du_vec` and `dv_vec`,
before normalisation. -/
def crossProduct (du_vec dv_vec : Point3D α) : Point3D α :=
  { x := du_vec.y * dv_vec.z - du_vec.z * dv_vec.y
    y := du_vec.z * dv_vec.x - du_vec.x * dv_vec.z
    z := du_vec.x * dv_vec.y - du_vec.y * dv_vec.x }

/-- The Euclidean length `sqrtf(x*x + y*y + z*z)` of a vector, as computed in
`calculateNormal`. -/
def Point3D.length (sqrtf : α → α) (q : Point3D α) : α :=
  sqrtf (q.x * q.x + q.y * q.y + q.z * q.z)

/-- A vector with every coordinate divided by `len`, as in the normalisation of
`calculateNormal`. -/
def Point3D.divide (q : Point3D α) (len : α) : Point3D α :=
  ⟨q.x / len, q.y / len, q.z / len⟩

/-- The tangent `du_vec` of `calculateNormal`: `evaluate(u + du, v) - evaluate(u, v)`
with `du = 0.01`. -/
def tangentU (controlPoints : List (Point3D α)) (u v : α) : Point3D α :=
  let du : α := 1 / 100
  let p1 := evaluatePoints controlPoints u v
  let p2 := evaluatePoints controlPoints (u + du) v
  ⟨p2.x - p1.x, p2.y - p1.y, p2.z - p1.z⟩

/-- The tangent `dv_vec` of `calculateNormal`: `evaluate(u, v + dv) - evaluate(u, v)`
with `dv = 0.01`. -/
def tangentV (controlPoints : List (Point3D α)) (u v : α) : Point3D α :=
  let dv : α := 1 / 100
  let p1 := evaluatePoints controlPoints u v
  let p3 := evaluatePoints controlPoints u (v + dv)
  ⟨p3.x - p1.x, p3.y - p1.y, p3.z - p1.z⟩

/-- The function `BezierPatch::calculateNormal(u, v)`, reading only
`controlPoints`; `sqrtf` is the square root it calls. -/
def calculateNormalPoints (sqrtf : α → α) (controlPoints : List (Point3D α)) (u v : α) :
    Point3D α :=
  let du_vec := tangentU controlPoints u v
  let dv_vec := tangentV controlPoints u v
  let normal := crossProduct du_vec dv_vec
  let length := sqrtf (normal.x * normal.x + normal.y * normal.y + normal.z * normal.z)
  if length > 0 then
    ⟨normal.x / length, normal.y / length, normal.z / length⟩
  else
    normal

/-- The cross product `Tu × Tv` of the two tangents at `(u, v)`, the vector
`normal` of `calculateNormal` before normalisation. -/
def BezierPatch.tangentCross (p : BezierPatch α) (u v : α) : Point3D α :=
  crossProduct (tangentU p.controlPoints u v) (tangentV p.controlPoints u v)

/-- The method `BezierPatch::calculateNormal(u, v)`. -/
def BezierPatch.calculateNormal (sqrtf : α → α) (p : BezierPatch α) (u v : α) : Point3D α :=
  calculateNormalPoints sqrtf p.controlPoints u v

/-- The body of the inner loop of the grid walk of `tessellate`: one sample is
pushed to `vertices`, `normals` and (twice) `texCoords`. -/
def gridStep (sqrtf : α → α) (u : α) (s : BezierPatch α) (j : Nat) : BezierPatch α :=
  let v : α := (j : α) / (s.resolution : α)
  let vertex := s.evaluate u v
  let normal := s.calculateNormal sqrtf u v
  { s with
    vertices := s.vertices ++ [vertex]
    normals := s.normals ++ [normal]
    texCoords := (s.texCoords ++ [u]) ++ [v] }

/-- The body of the outer loop of the grid walk of `tessellate`. -/
def gridRow (sqrtf : α → α) (s : BezierPatch α) (i : Nat) : BezierPatch α :=
  let u : α := (i : α) / (s.resolution : α)
  (List.range (s.resolution + 1).toNat).foldl (gridStep sqrtf u) s

/-- The six indices that the index loop of `tessellate` pushes for cell `(i, j)`. -/
def cellIndices (resolution : Int) (i j : Nat) : List Int :=
  let topLeft : Int := (i : Int) * (resolution + 1) + (j : Int)
  let topRight : Int := topLeft + 1
  let bottomLeft : Int := ((i : Int) + 1) * (resolution + 1) + (j : Int)
  let bottomRight : Int := bottomLeft + 1
  [topLeft, bottomLeft, topRight, topRight, bottomLeft, bottomRight]

/-- The body of the inner loop of the index generation of `tessellate`. -/
def indexStep (i : Nat) (s : BezierPatch α) (j : Nat) : BezierPatch α :=
  { s with indices := s.indices ++ cellIndices s.resolution i j }

/-- The body of the outer loop of the index generation of `tessellate`. -/
def indexRow (s : BezierPatch α) (i : Nat) : BezierPatch α :=
  (List.range s.resolution.toNat).foldl (indexStep i) s

/-- The method `BezierPatch::tessellate()`: the four buffers are cleared, the
grid is walked for `i, j = 0, …, resolution`, then the cells are walked for
`i, j = 0, …, resolution - 1`. -/
def BezierPatch.tessellate (sqrtf : α → α) (p : BezierPatch α) : BezierPatch α :=
  let cleared : BezierPatch α :=
    { p with vertices := [], normals := [], texCoords := [], indices := [] }
  let walked := (List.range (cleared.resolution + 1).toNat).foldl (gridRow sqrtf) cleared
  (List.range walked.resolution.toNat).foldl indexRow walked

/-- The sixteen control points assigned by `initializeControlPoints`. -/
def initialControlPoints : List (Point3D α) :=
  [⟨-3 / 2, 0, -3 / 2⟩, ⟨-1 / 2, 2, -3 / 2⟩, ⟨1 / 2, 2, -3 / 2⟩, ⟨3 / 2, 0, -3 / 2⟩,
   ⟨-3 / 2, 1, -1 / 2⟩, ⟨-1 / 2, 3, -1 / 2⟩, ⟨1 / 2, 3, -1 / 2⟩, ⟨3 / 2, 1, -1 / 2⟩,
   ⟨-3 / 2, 1, 1 / 2⟩, ⟨-1 / 2, 3, 1 / 2⟩, ⟨1 / 2, 3, 1 / 2⟩, ⟨3 / 2, 1, 1 / 2⟩,
   ⟨-3 / 2, 0, 3 / 2⟩, ⟨-1 / 2, 2, 3 / 2⟩, ⟨1 / 2, 2, 3 / 2⟩, ⟨3 / 2, 0, 3 / 2⟩]

/-- The control grid of the flat-patch scenario: `P[i][j] = (j/3, 0, i/3)`, the
unit square of the `x`,`z` plane, in the row-major order of `controlPoints`. -/
def flatControlPoints : List (Point3D α) :=
  [⟨0, 0, 0⟩, ⟨1 / 3, 0, 0⟩, ⟨2 / 3, 0, 0⟩, ⟨1, 0, 0⟩,
   ⟨0, 0, 1 / 3⟩, ⟨1 / 3, 0, 1 / 3⟩, ⟨2 / 3, 0, 1 / 3⟩, ⟨1, 0, 1 / 3⟩,
   ⟨0, 0, 2 / 3⟩, ⟨1 / 3, 0, 2 / 3⟩, ⟨2 / 3, 0, 2 / 3⟩, ⟨1, 0, 2 / 3⟩,
   ⟨0, 0, 1⟩, ⟨1 / 3, 0, 1⟩, ⟨2 / 3, 0, 1⟩, ⟨1, 0, 1⟩]

/-- The method `BezierPatch::initializeControlPoints()`. -/
def BezierPatch.initializeControlPoints (sqrtf : α → α) (p : BezierPatch α) : BezierPatch α :=
  BezierPatch.tessellate sqrtf { p with controlPoints := initialControlPoints }

/-- The constructor `BezierPatch::BezierPatch()`: resolution 12. -/
def BezierPatch.create (sqrtf : α → α) : BezierPatch α :=
  BezierPatch.initializeControlPoints sqrtf
    { controlPoints := [], vertices := [], normals := [], texCoords := [], indices := [],
      resolution := 12 }

/-- The lookups of `BezierPatch::render`: for every entry `idx` of `indices` the
method reads `normals[idx]`, `vertices[idx]`, `texCoords[idx * 2]` and
`texCoords[idx * 2 + 1]`; the lookups are in range when this holds. -/
def BezierPatch.renderInRange (p : BezierPatch α) : Prop :=
  ∀ idx ∈ p.indices, 0 ≤ idx ∧ idx < (p.normals.length : Int) ∧
    idx < (p.vertices.length : Int) ∧ idx * 2 + 1 < (p.texCoords.length : Int)

/-- The range check of `renderInRange` can be evaluated. -/
instance BezierPatch.decidableRenderInRange (p : BezierPatch α) :
    Decidable p.renderInRange := by
  unfold BezierPatch.renderInRange
  infer_instance

/-- The data members of `class Camera`. -/
structure Camera (α : Type) where
  cameraDistance : α
  cameraAngleX : α
  cameraAngleY : α
deriving DecidableEq

/-- The constructor `Camera::Camera()`. -/
def Camera.init : Camera α := ⟨8, 45, 45⟩

/-- The function template `std::max(a, b)`: `(a < b) ? b : a`. -/
def stdMax (a b : α) : α := if a < b then b else a

/-- The function template `std::min(a, b)`: `(b < a) ? b : a`. -/
def stdMin (a b : α) : α := if b < a then b else a

/-- The method `Camera::rotate(dx, dy)`. -/
def Camera.rotate (c : Camera α) (dx dy : α) : Camera α :=
  { c with cameraAngleX := c.cameraAngleX + dy, cameraAngleY := c.cameraAngleY + dx }

/-- The method `Camera::zoom(delta)`. -/
def Camera.zoom (c : Camera α) (delta : α) : Camera α :=
  let c1 := { c with cameraDistance := c.cameraDistance + delta }
  { c1 with cameraDistance := stdMax 1 (stdMin 20 c1.cameraDistance) }

/-- The method `Camera::reset()`. -/
def Camera.reset (_c : Camera α) : Camera α :=
  { cameraDistance := 8, cameraAngleX := 45, cameraAngleY := 45 }

end Patch

end Main3_1

namespace MainPart2

/-- The `struct Vertex` of `main_part2.cpp`. -/
structure Vertex (α : Type) where
  x : α
  y : α
  z : α
deriving DecidableEq

/-- The `struct Color` of `main_part2.cpp`. -/
structure Color (α : Type) where
  r : α
  g : α
  b : α
deriving DecidableEq

/-- The data members of `class MeshObject`. -/
structure MeshObject (α : Type) where
  vertices : List (Vertex α)
  normals : List (Vertex α)
  indices : List Int
  diffuseColor : Color α
  objectId : Int
  position : Vertex α
  scale : α

/-- The capabilities passed to `glEnable` and `glDisable`. -/
inductive GLCap where
  | GL_LIGHTING
  | GL_COLOR_MATERIAL
deriving DecidableEq

/-- The material parameters passed to `glMaterialfv` and `glMaterialf`. -/
inductive GLMaterial where
  | GL_AMBIENT
  | GL_DIFFUSE
  | GL_SPECULAR
  | GL_SHININESS
deriving DecidableEq

/-- The OpenGL calls issued by `MeshObject::render`, in the order of issue. -/
inductive GLCmd (α : Type) where
  | glPushMatrix
  | glTranslatef (x y z : α)
  | glColor3ub (r g b : Fin 256)
  | glDisable (cap : GLCap)
  | glEnable (cap : GLCap)
  | glMaterialfv (pname : GLMaterial) (params : List α)
  | glMaterialf (pname : GLMaterial) (param : α)
  | glBegin
  | glNormal3f (x y z : α)
  | glVertex3f (x y z : α)
  | glEnd
  | glPopMatrix
deriving DecidableEq

/-- The three bytes `unsigned char pixel[3]` that `glReadPixels` fills in
`pickObject`: `r` is `pixel[0]`, `g` is `pixel[1]`, `b` is `pixel[2]`. -/
structure Pixel where
  r : Fin 256
  g : Fin 256
  b : Fin 256
deriving DecidableEq

/-- The data members of `class PickingSystem`. -/
structure PickingSystem where
  fbo : Nat
  colorBuffer : Nat
  depthBuffer : Nat
  windowWidth : Int
  windowHeight : Int
deriving DecidableEq

/-- The conversion of an `int` argument to the `GLubyte` parameter of
`glColor3ub`: the value modulo 256. -/
def toGLubyte (x : Int) : Fin 256 :=
  ⟨(x % 256).toNat, by omega⟩

/-- The three `int` values `r`, `g`, `b` that `MeshObject::render` computes from
`objectId` in picking mode. -/
def pickingColor (objectId : Int) : Int × Int × Int :=
  let r := (Int.land objectId 0xFF0000) >>> (16 : Int)
  let g := (Int.land objectId 0x00FF00) >>> (8 : Int)
  let b := Int.land objectId 0x0000FF
  (r, g, b)

/-- The colour that `glColor3ub(r, g, b)` stores for an object in picking mode,
which is what a pixel covered by the object holds in the picking surface. -/
def pickingPixel (objectId : Int) : Pixel :=
  let c := pickingColor objectId
  ⟨toGLubyte c.1, toGLubyte c.2.1, toGLubyte c.2.2⟩

/-- The decoding `(pixel[0] << 16) | (pixel[1] << 8) | pixel[2]` of `pickObject`. -/
def decodeId (pixel : Pixel) : Int :=
  Int.lor (Int.lor (((pixel.r.val : Nat) : Int) <<< (16 : Int))
    (((pixel.g.val : Nat) : Int) <<< (8 : Int))) ((pixel.b.val : Nat) : Int)

section Objects

variable {α : Type} [LinearOrderedField α]

/-- The method `MeshObject::generateGeometry()`. -/
def MeshObject.generateGeometry (m : MeshObject α) : MeshObject α :=
  let s := m.scale
  { m with
    vertices :=
      [⟨-s, -s, -s⟩, ⟨s, -s, -s⟩, ⟨s, s, -s⟩, ⟨-s, s, -s⟩,
       ⟨-s, -s, s⟩, ⟨s, -s, s⟩, ⟨s, s, s⟩, ⟨-s, s, s⟩]
    normals :=
      [⟨0, 0, -1⟩, ⟨0, 0, -1⟩, ⟨0, 0, -1⟩, ⟨0, 0, -1⟩,
       ⟨0, 0, 1⟩, ⟨0, 0, 1⟩, ⟨0, 0, 1⟩, ⟨0, 0, 1⟩,
       ⟨-1, 0, 0⟩, ⟨-1, 0, 0⟩, ⟨-1, 0, 0⟩, ⟨-1, 0, 0⟩,
       ⟨1, 0, 0⟩, ⟨1, 0, 0⟩, ⟨1, 0, 0⟩, ⟨1, 0, 0⟩,
       ⟨0, -1, 0⟩, ⟨0, -1, 0⟩, ⟨0, -1, 0⟩, ⟨0, -1, 0⟩,
       ⟨0, 1, 0⟩, ⟨0, 1, 0⟩, ⟨0, 1, 0⟩, ⟨0, 1, 0⟩]
    indices :=
      [0, 1, 2, 2, 3, 0, 4, 5, 6, 6, 7, 4,
       0, 3, 7, 7, 4, 0, 1, 2, 6, 6, 5, 1,
       0, 1, 5, 5, 4, 0, 3, 2, 6, 6, 7, 3] }

/-- The constructor `MeshObject(pos, color, id, scale)`. -/
def MeshObject.create (pos : Vertex α) (color : Color α) (id : Int) (scale : α) :
    MeshObject α :=
  MeshObject.generateGeometry
    { vertices := [], normals := [], indices := [], diffuseColor := color,
      objectId := id, position := pos, scale := scale }

/-- The method `MeshObject::getObjectId()`. -/
def MeshObject.getObjectId (m : MeshObject α) : Int := m.objectId

/-- The index `vertexIndex = indices[i] % 8` of the drawing loop of `render`. -/
def MeshObject.vertexIndex (m : MeshObject α) (i : Nat) : Int :=
  Int.tmod (m.indices.getD i 0) 8

/-- The index `normalIndex = indices[i] / 8 * 4 + (i % 6) / 3` of the drawing
loop of `render`. -/
def MeshObject.normalIndex (m : MeshObject α) (i : Nat) : Int :=
  Int.tdiv (m.indices.getD i 0) 8 * 4 + (((i % 6) / 3 : Nat) : Int)

/-- The body of the drawing loop of `render` at position `i` of `indices`. -/
def MeshObject.drawStep (m : MeshObject α) (pickingMode : Bool) (i : Nat) : List (GLCmd α) :=
  let vertexIndex := m.vertexIndex i
  let normalIndex := m.normalIndex i
  let n := m.normals.getD normalIndex.toNat ⟨0, 0, 0⟩
  let v := m.vertices.getD vertexIndex.toNat ⟨0, 0, 0⟩
  (if pickingMode then [] else [GLCmd.glNormal3f n.x n.y n.z]) ++ [GLCmd.glVertex3f v.x v.y v.z]

/-- The method `MeshObject::render(pickingMode)` as the list of OpenGL calls
it issues. -/
def MeshObject.render (m : MeshObject α) (pickingMode : Bool) : List (GLCmd α) :=
  [GLCmd.glPushMatrix, GLCmd.glTranslatef m.position.x m.position.y m.position.z]
  ++ (if pickingMode then
        let c := pickingColor m.objectId
        [GLCmd.glColor3ub (toGLubyte c.1) (toGLubyte c.2.1) (toGLubyte c.2.2),
         GLCmd.glDisable GLCap.GL_LIGHTING]
      else
        [GLCmd.glEnable GLCap.GL_LIGHTING,
         GLCmd.glDisable GLCap.GL_COLOR_MATERIAL,
         GLCmd.glMaterialfv GLMaterial.GL_AMBIENT
           [m.diffuseColor.r * (3 / 10), m.diffuseColor.g * (3 / 10),
            m.diffuseColor.b * (3 / 10), 1],
         GLCmd.glMaterialfv GLMaterial.GL_DIFFUSE
           [m.diffuseColor.r, m.diffuseColor.g, m.diffuseColor.b, 1],
         GLCmd.glMaterialfv GLMaterial.GL_SPECULAR [8 / 10, 8 / 10, 8 / 10, 1],
         GLCmd.glMaterialf GLMaterial.GL_SHININESS 50])
  ++ [GLCmd.glBegin]
  ++ (List.range m.indices.length).flatMap (m.drawStep pickingMode)
  ++ [GLCmd.glEnd]
  ++ (if pickingMode then [GLCmd.glEnable GLCap.GL_LIGHTING] else [])
  ++ [GLCmd.glPopMatrix]

/-- The search loop of `pickObject` from position `i` on: the first object whose
identity equals `clickedId`, provided `clickedId != 0`, else `-1`. -/
def pickSearch (clickedId : Int) : List (MeshObject α) → Nat → Int
  | [], _ => -1
  | obj :: rest, i =>
    if obj.getObjectId = clickedId ∧ clickedId ≠ 0 then (i : Int)
    else pickSearch clickedId rest (i + 1)

/-- The method `PickingSystem::pickObject(mouseX, mouseY, objects)`; the
parameter `glReadPixels x y` is the pixel that the read-back at `(x, y)` of the
picking surface delivers once the objects are rendered. -/
def PickingSystem.pickObject (ps : PickingSystem) (glReadPixels : Int → Int → Pixel)
    (mouseX mouseY : Int) (objects : List (MeshObject α)) : Int :=
  let pixel := glReadPixels mouseX (ps.windowHeight - mouseY - 1)
  let clickedId := decodeId pixel
  pickSearch clickedId objects 0

/-- The constructor `PickingSystem::PickingSystem()`. -/
def PickingSystem.init : PickingSystem :=
  { fbo := 0, colorBuffer := 0, depthBuffer := 0, windowWidth := 800, windowHeight := 600 }

/-- The collection `objects` after `initializeObjects()`: three cubes of scale
`0.8` with the identities `0xFF0000`, `0x00FF00` and `0x0000FF`. -/
def initializeObjects : List (MeshObject α) :=
  [MeshObject.create ⟨-2, 0, 0⟩ ⟨1, 0, 0⟩ 0xFF0000 (8 / 10),
   MeshObject.create ⟨0, 0, 0⟩ ⟨0, 1, 0⟩ 0x00FF00 (8 / 10),
   MeshObject.create ⟨2, 0, 0⟩ ⟨0, 0, 1⟩ 0x0000FF (8 / 10)]

/-- The data members of `class Camera`. -/
structure Camera (α : Type) where
  cameraDistance : α
  cameraAngleX : α
  cameraAngleY : α
deriving DecidableEq

/-- The constructor `Camera::Camera()`. -/
def Camera.init : Camera α := ⟨8, 45, 45⟩

/-- The function template `std::max(a, b)`: `(a < b) ? b : a`. -/
def stdMax (a b : α) : α := if a < b then b else a

/-- The function template `std::min(a, b)`: `(b < a) ? b : a`. -/
def stdMin (a b : α) : α := if b < a then b else a

/-- The method `Camera::rotate(dx, dy)`. -/
def Camera.rotate (c : Camera α) (dx dy : α) : Camera α :=
  { c with cameraAngleX := c.cameraAngleX + dy, cameraAngleY := c.cameraAngleY + dx }

/-- The method `Camera::zoom(delta)`. -/
def Camera.zoom (c : Camera α) (delta : α) : Camera α :=
  let c1 := { c with cameraDistance := c.cameraDistance + delta }
  { c1 with cameraDistance := stdMax 1 (stdMin 20 c1.cameraDistance) }

/-- The method `Camera::reset()`. -/
def Camera.reset (_c : Camera α) : Camera α :=
  { cameraDistance := 8, cameraAngleX := 45, cameraAngleY := 45 }

/-- The arguments that a view set-up passes to `gluPerspective(fovy, aspect,
zNear, zFar)` and to `gluLookAt(eye, center, up)`. -/
structure ViewSetup (α : Type) where
  fovy : α
  aspect : α
  zNear : α
  zFar : α
  eyeX : α
  eyeY : α
  eyeZ : α
  centerX : α
  centerY : α
  centerZ : α
  upX : α
  upY : α
  upZ : α
deriving DecidableEq

/-- The method `Camera::apply()` of `main_part2.cpp`, as the view it sets for the
visible pass; `cosf` and `sinf` are the library functions it calls and
`3.14159f` is `314159/100000`. -/
def Camera.apply (cosf sinf : α → α) (c : Camera α) : ViewSetup α :=
  let radX := c.cameraAngleX * (314159 / 100000) / 180
  let radY := c.cameraAngleY * (314159 / 100000) / 180
  let eyeX := c.cameraDistance * cosf radY * sinf radX
  let eyeY := c.cameraDistance * cosf radX
  let eyeZ := c.cameraDistance * sinf radY * sinf radX
  { fovy := 45, aspect := 800 / 600, zNear := 1 / 10, zFar := 100,
    eyeX := eyeX, eyeY := eyeY, eyeZ := eyeZ,
    centerX := 0, centerY := 0, centerZ := 0,
    upX := 0, upY := 1, upZ := 0 }

/-- The method `PickingSystem::setupPickingView()`, as the view it sets for the
picking pass. -/
def PickingSystem.setupPickingView (cosf sinf : α → α) (ps : PickingSystem) : ViewSetup α :=
  let eyeX := 8 * cosf (45 * (314159 / 100000) / 180) * sinf (45 * (314159 / 100000) / 180)
  let eyeY := 8 * cosf (45 * (314159 / 100000) / 180)
  let eyeZ := 8 * sinf (45 * (314159 / 100000) / 180) * sinf (45 * (314159 / 100000) / 180)
  { fovy := 45, aspect := (ps.windowWidth : α) / (ps.windowHeight : α),
    zNear := 1 / 10, zFar := 100,
    eyeX := eyeX, eyeY := eyeY, eyeZ := eyeZ,
    centerX := 0, centerY := 0, centerZ := 0,
    upX := 0, upY := 1, upZ := 0 }

end Objects

/-- The method `PickingSystem::initialize()`: the three names that
`glGenFramebuffers`, `glGenTextures` and `glGenRenderbuffers` hand out are stored,
and the result is whether `glCheckFramebufferStatus` reported
`GL_FRAMEBUFFER_COMPLETE` (the parameter `complete`).  Nothing of the outcome is
kept in the object. -/
def PickingSystem.initialize (ps : PickingSystem) (fboName colorName depthName : Nat)
    (complete : Bool) : Bool × PickingSystem :=
  let ps1 := { ps with fbo := fboName, colorBuffer := colorName, depthBuffer := depthName }
  if complete then (true, ps1) else (false, ps1)

/-- The method `PickingSystem::cleanup()`: the GL objects are deleted, the data
members keep their values. -/
def PickingSystem.cleanup (ps : PickingSystem) : PickingSystem := ps

/-- The method `PickingSystem::setWindowSize(width, height)`; the result of
`initialize()` is discarded. -/
def PickingSystem.setWindowSize (ps : PickingSystem) (width height : Int)
    (fboName colorName depthName : Nat) (complete : Bool) : PickingSystem :=
  let ps1 := { ps with windowWidth := width, windowHeight := height }
  ( PickingSystem.initialize ps1.cleanup fboName colorName depthName complete).2

end MainPart2

/-! ## The tessellation loops in closed form -/

set_option linter.unusedSectionVars false

namespace Main3_1

section PatchLemmas

variable {α : Type} [LinearOrderedField α]

/-- A loop that appends `f a` for every `a` of a list appends the concatenation. -/
theorem flatMap_length_const {β γ : Type} (l : List β) (f : β → List γ) (c : Nat)
    (h : ∀ a, (f a).length = c) : (l.flatMap f).length = l.length * c := by
  induction l with
  | nil => simp
  | cons a t ih => simp [List.flatMap_cons, ih, h, Nat.succ_mul, Nat.add_comm]

/-- A doubly nested loop pushing one element per pass pushes `|l| · |l2|` elements. -/
theorem length_flatMap_map {β γ δ : Type} (l : List β) (l2 : List γ) (g : β → γ → δ) :
    (l.flatMap (fun i => l2.map (g i))).length = l.length * l2.length :=
  flatMap_length_const l _ l2.length (fun a => by simp)

/-- A doubly nested loop pushing `c` elements per pass pushes `|l| · (|l2| · c)` elements. -/
theorem length_flatMap_flatMap {β γ δ : Type} (l : List β) (l2 : List γ)
    (g : β → γ → List δ) (c : Nat) (h : ∀ i j, (g i j).length = c) :
    (l.flatMap (fun i => l2.flatMap (g i))).length = l.length * (l2.length * c) :=
  flatMap_length_const l _ (l2.length * c) (fun a => flatMap_length_const l2 _ c (h a))

/-- The inner grid loop in closed form. -/
theorem foldl_gridStep (sqrtf : α → α) (u : α) (l : List Nat) (s : BezierPatch α) :
    l.foldl (gridStep sqrtf u) s =
      { s with
        vertices := s.vertices ++
          l.map (fun (j : Nat) => evaluatePoints s.controlPoints u ((j : α) / (s.resolution : α)))
        normals := s.normals ++
          l.map (fun (j : Nat) =>
            calculateNormalPoints sqrtf s.controlPoints u ((j : α) / (s.resolution : α)))
        texCoords := s.texCoords ++
          l.flatMap (fun (j : Nat) => [u, (j : α) / (s.resolution : α)]) } := by
  induction l generalizing s with
  | nil => simp
  | cons j t ih =>
    rw [List.foldl_cons, ih]
    simp [gridStep, BezierPatch.evaluate, BezierPatch.calculateNormal, List.flatMap_cons]

/-- The outer grid loop in closed form. -/
theorem foldl_gridRow (sqrtf : α → α) (l : List Nat) (s : BezierPatch α) :
    l.foldl (gridRow sqrtf) s =
      { s with
        vertices := s.vertices ++
          l.flatMap (fun (i : Nat) => (List.range (s.resolution + 1).toNat).map (fun (j : Nat) =>
            evaluatePoints s.controlPoints ((i : α) / (s.resolution : α))
              ((j : α) / (s.resolution : α))))
        normals := s.normals ++
          l.flatMap (fun (i : Nat) => (List.range (s.resolution + 1).toNat).map (fun (j : Nat) =>
            calculateNormalPoints sqrtf s.controlPoints ((i : α) / (s.resolution : α))
              ((j : α) / (s.resolution : α))))
        texCoords := s.texCoords ++
          l.flatMap (fun (i : Nat) => (List.range (s.resolution + 1).toNat).flatMap (fun (j : Nat) =>
            [(i : α) / (s.resolution : α), (j : α) / (s.resolution : α)])) } := by
  induction l generalizing s with
  | nil => simp
  | cons i t ih =>
    rw [List.foldl_cons, ih]
    simp [gridRow, foldl_gridStep, List.flatMap_cons]

/-- The inner index loop in closed form. -/
theorem foldl_indexStep (i : Nat) (l : List Nat) (s : BezierPatch α) :
    l.foldl (indexStep i) s =
      { s with indices := s.indices ++ l.flatMap (cellIndices s.resolution i) } := by
  induction l generalizing s with
  | nil => simp
  | cons j t ih =>
    rw [List.foldl_cons, ih]
    simp [indexStep, List.flatMap_cons]

/-- The outer index loop in closed form. -/
theorem foldl_indexRow (l : List Nat) (s : BezierPatch α) :
    l.foldl indexRow s =
      { s with indices := s.indices ++
          l.flatMap (fun (i : Nat) => (List.range s.resolution.toNat).flatMap
            (cellIndices s.resolution i)) } := by
  induction l generalizing s with
  | nil => simp
  | cons i t ih =>
    rw [List.foldl_cons, ih]
    simp [indexRow, foldl_indexStep, List.flatMap_cons]

/-- The four buffers that `tessellate` leaves, in closed form; `controlPoints`
and `resolution` are unchanged. -/
theorem tessellate_eq (sqrtf : α → α) (p : BezierPatch α) :
    p.tessellate sqrtf =
      { controlPoints := p.controlPoints
        resolution := p.resolution
        vertices :=
          (List.range (p.resolution + 1).toNat).flatMap (fun (i : Nat) =>
            (List.range (p.resolution + 1).toNat).map (fun (j : Nat) =>
              evaluatePoints p.controlPoints ((i : α) / (p.resolution : α))
                ((j : α) / (p.resolution : α))))
        normals :=
          (List.range (p.resolution + 1).toNat).flatMap (fun (i : Nat) =>
            (List.range (p.resolution + 1).toNat).map (fun (j : Nat) =>
              calculateNormalPoints sqrtf p.controlPoints ((i : α) / (p.resolution : α))
                ((j : α) / (p.resolution : α))))
        texCoords :=
          (List.range (p.resolution + 1).toNat).flatMap (fun (i : Nat) =>
            (List.range (p.resolution + 1).toNat).flatMap (fun (j : Nat) =>
              [(i : α) / (p.resolution : α), (j : α) / (p.resolution : α)]))
        indices :=
          (List.range p.resolution.toNat).flatMap (fun (i : Nat) =>
            (List.range p.resolution.toNat).flatMap (cellIndices p.resolution i)) } := by
  simp [BezierPatch.tessellate, foldl_gridRow, foldl_indexRow]

end PatchLemmas

end Main3_1

/-! ## Claims on the tessellated mesh and the picking protocol -/

namespace Main3_1

section MeshCounts

variable {α : Type} [LinearOrderedField α]

/-- Every index pushed for a cell of an `n × n` grid is a vertex index. -/
theorem cellIndices_range (n : Int) (i j : Nat) (hi : (i : Int) < n) (hj : (j : Int) < n)
    (k : Int) (hk : k ∈ cellIndices n i j) : 0 ≤ k ∧ k < (n + 1) ^ 2 := by
  have hi0 : (0 : Int) ≤ i := Int.natCast_nonneg i
  have hj0 : (0 : Int) ≤ j := Int.natCast_nonneg j
  have h1 : (0 : Int) ≤ (i : Int) * (n + 1) := mul_nonneg hi0 (by omega)
  have h2 : ((i : Int) + 1) * (n + 1) ≤ n * (n + 1) := by nlinarith
  have h3 : (i : Int) * (n + 1) ≤ ((i : Int) + 1) * (n + 1) := by nlinarith
  have h4 : (n + 1) ^ 2 = n * (n + 1) + n + 1 := by ring
  simp only [cellIndices, List.mem_cons, List.mem_singleton, List.not_mem_nil, or_false] at hk
  rcases hk with rfl | rfl | rfl | rfl | rfl | rfl <;> constructor <;> omega

/-- C1: for every resolution `n ≥ 1` and every control grid, `tessellate` leaves
exactly `(n+1)²` entries in `vertices` and exactly `6·n²` entries in `indices`
(that is `2·n²` triangles), every entry `k` of `indices` satisfies
`0 ≤ k < (n+1)²`, and the lookups of `render` are all in range. -/
theorem tessellate_counts (sqrtf : α → α) (p : BezierPatch α) (hn : 1 ≤ p.resolution) :
    ((p.tessellate sqrtf).vertices.length : Int) = (p.resolution + 1) ^ 2 ∧
    ((p.tessellate sqrtf).indices.length : Int) = 6 * p.resolution ^ 2 ∧
    (p.tessellate sqrtf).indices.length = 3 * (2 * p.resolution.toNat ^ 2) ∧
    (∀ k ∈ (p.tessellate sqrtf).indices, 0 ≤ k ∧ k < (p.resolution + 1) ^ 2) ∧
    (p.tessellate sqrtf).renderInRange := by
  obtain ⟨n, hres⟩ : ∃ n : Nat, p.resolution = (n : Int) := ⟨p.resolution.toNat, by omega⟩
  have hm : (p.resolution + 1).toNat = n + 1 := by omega
  have hn' : p.resolution.toNat = n := by omega
  have hv : (p.tessellate sqrtf).vertices.length = (n + 1) * (n + 1) := by
    rw [tessellate_eq, hm]
    simp only [length_flatMap_map, List.length_range]
  have hnm : (p.tessellate sqrtf).normals.length = (n + 1) * (n + 1) := by
    rw [tessellate_eq, hm]
    simp only [length_flatMap_map, List.length_range]
  have ht : (p.tessellate sqrtf).texCoords.length = (n + 1) * ((n + 1) * 2) := by
    rw [tessellate_eq, hm]
    simp only []
    rw [length_flatMap_flatMap _ _ _ 2 (fun _ _ => by simp)]
    simp only [List.length_range]
  have hI : (p.tessellate sqrtf).indices.length = n * (n * 6) := by
    rw [tessellate_eq, hn']
    simp only []
    rw [length_flatMap_flatMap _ _ _ 6 (fun _ _ => by simp [cellIndices])]
    simp only [List.length_range]
  have hk : ∀ k ∈ (p.tessellate sqrtf).indices, 0 ≤ k ∧ k < (p.resolution + 1) ^ 2 := by
    intro k hk
    rw [tessellate_eq, hn'] at hk
    simp only [List.mem_flatMap, List.mem_range] at hk
    obtain ⟨i, hi, j, hj, hkc⟩ := hk
    exact cellIndices_range p.resolution i j (by omega) (by omega) k hkc
  have hsq : (p.resolution + 1) ^ 2 = (((n + 1) * (n + 1) : Nat) : Int) := by
    rw [hres]; push_cast; ring
  refine ⟨?_, ?_, ?_, hk, ?_⟩
  · rw [hv, hsq]
  · rw [hI, hres]; push_cast; ring
  · rw [hI, hn']; ring
  · intro idx hidx
    have hb := hk idx hidx
    rw [hsq] at hb
    rw [hv, hnm, ht]
    refine ⟨hb.1, hb.2, hb.2, ?_⟩
    have := hb.2
    push_cast at this ⊢
    nlinarith

/-- Up to resolution 46339 every index that `tessellate` computes is below
`2^31`, so the `int` arithmetic of the index loop agrees with arithmetic in `ℤ`. -/
theorem tessellate_indices_fit_int32 (sqrtf : α → α) (p : BezierPatch α)
    (hn : 1 ≤ p.resolution) (hmax : p.resolution ≤ 46339) :
    ∀ k ∈ (p.tessellate sqrtf).indices, 0 ≤ k ∧ k < 2 ^ 31 := by
  intro k hk
  rw [tessellate_eq] at hk
  simp only [List.mem_flatMap, List.mem_range] at hk
  obtain ⟨i, hi, j, hj, hkc⟩ := hk
  have hr := cellIndices_range p.resolution i j (by omega) (by omega) k hkc
  refine ⟨hr.1, lt_of_lt_of_le hr.2 ?_⟩
  have h1 : p.resolution + 1 ≤ 46340 := by omega
  have h0 : 0 ≤ p.resolution + 1 := by omega
  calc (p.resolution + 1) ^ 2 ≤ 46340 ^ 2 := by nlinarith
    _ ≤ 2 ^ 31 := by norm_num

/-- C1, at the patch of the program: resolution 12 gives 169 vertices and 864
indices. -/
theorem tessellate_counts_witness :
    (1 : Int) ≤ 12 ∧
    (((⟨initialControlPoints, [], [], [], [], 12⟩ : BezierPatch ℝ).tessellate
      Real.sqrt).vertices.length : Int) = (12 + 1) ^ 2 ∧
    (((⟨initialControlPoints, [], [], [], [], 12⟩ : BezierPatch ℝ).tessellate
      Real.sqrt).indices.length : Int) = 6 * 12 ^ 2 :=
  ⟨by decide,
   (tessellate_counts Real.sqrt (⟨initialControlPoints, [], [], [], [], 12⟩ : BezierPatch ℝ)
     (by decide)).1,
   (tessellate_counts Real.sqrt (⟨initialControlPoints, [], [], [], [], 12⟩ : BezierPatch ℝ)
     (by decide)).2.1⟩

end MeshCounts

end Main3_1

namespace Main3_1

section Bernstein

variable {α : Type} [LinearOrderedField α]

/-- The cubic Bernstein weight of index 0. -/
theorem bernstein_zero (t : α) : bernstein 0 3 t = (1 - t) ^ 3 := by
  simp [bernstein]
  norm_cast

/-- The cubic Bernstein weight of index 1. -/
theorem bernstein_one (t : α) : bernstein 1 3 t = 3 * t * (1 - t) ^ 2 := by
  simp [bernstein, bernsteinStep, List.range']
  left
  norm_cast

/-- The cubic Bernstein weight of index 2. -/
theorem bernstein_two (t : α) : bernstein 2 3 t = 3 * t ^ 2 * (1 - t) := by
  simp [bernstein, bernsteinStep, List.range']
  left
  norm_cast

/-- The cubic Bernstein weight of index 3. -/
theorem bernstein_three (t : α) : bernstein 3 3 t = t ^ 3 := by
  simp [bernstein, bernsteinStep, List.range']
  norm_cast

end Bernstein

end Main3_1

namespace Main3_1

section Evaluate

variable {α : Type} [LinearOrderedField α]

/-- The list of the loop counters of `evaluate`. -/
theorem range_four : List.range 4 = [0, 1, 2, 3] := rfl

/-- The `x` coordinate of `evaluate(u, v)` is the weighted sum of the `x`
coordinates of the sixteen control points. -/
theorem evaluatePoints_x (cp : List (Point3D α)) (u v : α) :
    (evaluatePoints cp u v).x =
      ∑ i in Finset.range 4, ∑ j in Finset.range 4,
        (bernstein (i : Int) 3 u * bernstein (j : Int) 3 v) *
          (cp.getD (i * 4 + j) Point3D.zero).x := by
  simp only [evaluatePoints, range_four, List.foldl_cons, List.foldl_nil, evaluateStep,
    Finset.sum_range_succ, Finset.sum_range_zero]
  ring

/-- The `y` coordinate of `evaluate(u, v)` is the weighted sum of the `y`
coordinates of the sixteen control points. -/
theorem evaluatePoints_y (cp : List (Point3D α)) (u v : α) :
    (evaluatePoints cp u v).y =
      ∑ i in Finset.range 4, ∑ j in Finset.range 4,
        (bernstein (i : Int) 3 u * bernstein (j : Int) 3 v) *
          (cp.getD (i * 4 + j) Point3D.zero).y := by
  simp only [evaluatePoints, range_four, List.foldl_cons, List.foldl_nil, evaluateStep,
    Finset.sum_range_succ, Finset.sum_range_zero]
  ring

/-- The `z` coordinate of `evaluate(u, v)` is the weighted sum of the `z`
coordinates of the sixteen control points. -/
theorem evaluatePoints_z (cp : List (Point3D α)) (u v : α) :
    (evaluatePoints cp u v).z =
      ∑ i in Finset.range 4, ∑ j in Finset.range 4,
        (bernstein (i : Int) 3 u * bernstein (j : Int) 3 v) *
          (cp.getD (i * 4 + j) Point3D.zero).z := by
  simp only [evaluatePoints, range_four, List.foldl_cons, List.foldl_nil, evaluateStep,
    Finset.sum_range_succ, Finset.sum_range_zero]
  ring

/-- The weights of `evaluate`, summed over one index, give one. -/
theorem bernstein_sum (t : α) : ∑ i in Finset.range 4, bernstein (i : Int) 3 t = 1 := by
  simp only [Finset.sum_range_succ, Finset.sum_range_zero]
  have h0 := bernstein_zero t
  have h1 := bernstein_one t
  have h2 := bernstein_two t
  have h3 := bernstein_three t
  norm_num at h0 h1 h2 h3 ⊢
  rw [h0, h1, h2, h3]
  ring

/-- The sixteen products of weights sum to one. -/
theorem bernstein_partition_of_unity_aux (u v : α) :
    ∑ i in Finset.range 4, ∑ j in Finset.range 4,
      bernstein (i : Int) 3 u * bernstein (j : Int) 3 v = 1 := by
  simp only [← Finset.mul_sum, ← Finset.sum_mul, bernstein_sum, mul_one]

/-- On the unit interval every weight of `evaluate` is non-negative. -/
theorem bernstein_nonneg (t : α) (h0 : 0 ≤ t) (h1 : t ≤ 1) (i : Nat) (hi : i < 4) :
    0 ≤ bernstein (i : Int) 3 t := by
  have h : 0 ≤ 1 - t := by linarith
  interval_cases i
  · have := bernstein_zero t
    norm_num at this ⊢
    rw [this]; positivity
  · have := bernstein_one t
    norm_num at this ⊢
    rw [this]; positivity
  · have := bernstein_two t
    norm_num at this ⊢
    rw [this]; positivity
  · have := bernstein_three t
    norm_num at this ⊢
    rw [this]; positivity

end Evaluate

end Main3_1

namespace Main3_1

section Corners

variable {α : Type} [LinearOrderedField α]

/-- Two points with equal coordinates are equal. -/
theorem Point3D.eq_of_coords {β : Type} (q r : Point3D β) (hx : q.x = r.x) (hy : q.y = r.y)
    (hz : q.z = r.z) : q = r := by
  cases q; cases r; simp_all

/-- The weights of `evaluate` at parameter 0 and at parameter 1. -/
theorem bernstein_ends :
    (bernstein 0 3 (0 : α) = 1 ∧ bernstein 1 3 (0 : α) = 0 ∧
      bernstein 2 3 (0 : α) = 0 ∧ bernstein 3 3 (0 : α) = 0) ∧
    (bernstein 0 3 (1 : α) = 0 ∧ bernstein 1 3 (1 : α) = 0 ∧
      bernstein 2 3 (1 : α) = 0 ∧ bernstein 3 3 (1 : α) = 1) := by
  refine ⟨⟨?_, ?_, ?_, ?_⟩, ?_, ?_, ?_, ?_⟩ <;>
    simp [bernstein_zero, bernstein_one, bernstein_two, bernstein_three]

/-- C5: in exact arithmetic the surface passes through the four corner control
points: `evaluate(0,0) = P[0][0]`, `evaluate(1,0) = P[3][0]`,
`evaluate(0,1) = P[0][3]` and `evaluate(1,1) = P[3][3]`, where `P[i][j]` is the
entry `i*4+j` of `controlPoints`. -/
theorem evaluate_corners (p : BezierPatch α) :
    p.evaluate 0 0 = p.controlPoints.getD (0 * 4 + 0) Point3D.zero ∧
    p.evaluate 1 0 = p.controlPoints.getD (3 * 4 + 0) Point3D.zero ∧
    p.evaluate 0 1 = p.controlPoints.getD (0 * 4 + 3) Point3D.zero ∧
    p.evaluate 1 1 = p.controlPoints.getD (3 * 4 + 3) Point3D.zero := by
  obtain ⟨⟨a0, a1, a2, a3⟩, b0, b1, b2, b3⟩ := bernstein_ends (α := α)
  refine ⟨?_, ?_, ?_, ?_⟩ <;>
    apply Point3D.eq_of_coords <;>
    simp only [BezierPatch.evaluate, evaluatePoints_x, evaluatePoints_y, evaluatePoints_z,
      Finset.sum_range_succ, Finset.sum_range_zero] <;>
    simp [a0, a1, a2, a3, b0, b1, b2, b3]

/-- C6: partition of unity.  The sixteen weights that `evaluate` applies sum to
one, for all `u` and `v` (in particular for all `u`, `v` in `[0,1]`). -/
theorem bernstein_partition_of_unity (u v : α) :
    ∑ i in Finset.range 4, ∑ j in Finset.range 4,
      bernstein (i : Int) 3 u * bernstein (j : Int) 3 v = 1 := by
  simp only [← Finset.mul_sum, ← Finset.sum_mul, bernstein_sum, mul_one]

end Corners

end Main3_1

namespace Main3_1

section ConvexHull

variable {α : Type} [LinearOrderedField α]

/-- On the unit square every weight of `evaluate` is non-negative. -/
theorem weight_nonneg (u v : α) (hu0 : 0 ≤ u) (hu1 : u ≤ 1) (hv0 : 0 ≤ v) (hv1 : v ≤ 1)
    (i j : Nat) (hi : i < 4) (hj : j < 4) :
    0 ≤ bernstein (i : Int) 3 u * bernstein (j : Int) 3 v :=
  mul_nonneg (bernstein_nonneg u hu0 hu1 i hi) (bernstein_nonneg v hv0 hv1 j hj)

/-- A weighted sum with the weights of `evaluate` is at least any lower bound of
the sixteen values. -/
theorem weighted_sum_lower (f : Nat → α) (lo : α) (hlo : ∀ k, k < 16 → lo ≤ f k) (u v : α)
    (hu0 : 0 ≤ u) (hu1 : u ≤ 1) (hv0 : 0 ≤ v) (hv1 : v ≤ 1) :
    lo ≤ ∑ i in Finset.range 4, ∑ j in Finset.range 4,
      (bernstein (i : Int) 3 u * bernstein (j : Int) 3 v) * f (i * 4 + j) := by
  have hsum : ∑ i in Finset.range 4, ∑ j in Finset.range 4,
      (bernstein (i : Int) 3 u * bernstein (j : Int) 3 v) * lo = lo := by
    simp only [← Finset.sum_mul, bernstein_partition_of_unity_aux u v, one_mul]
  calc lo = ∑ i in Finset.range 4, ∑ j in Finset.range 4,
        (bernstein (i : Int) 3 u * bernstein (j : Int) 3 v) * lo := hsum.symm
    _ ≤ _ := by
      refine Finset.sum_le_sum (fun i hi => Finset.sum_le_sum (fun j hj => ?_))
      have hi4 : i < 4 := Finset.mem_range.mp hi
      have hj4 : j < 4 := Finset.mem_range.mp hj
      exact mul_le_mul_of_nonneg_left (hlo _ (by omega))
        (weight_nonneg u v hu0 hu1 hv0 hv1 i j hi4 hj4)

/-- A weighted sum with the weights of `evaluate` is at most any upper bound of
the sixteen values. -/
theorem weighted_sum_upper (f : Nat → α) (hi : α) (hhi : ∀ k, k < 16 → f k ≤ hi) (u v : α)
    (hu0 : 0 ≤ u) (hu1 : u ≤ 1) (hv0 : 0 ≤ v) (hv1 : v ≤ 1) :
    ∑ i in Finset.range 4, ∑ j in Finset.range 4,
      (bernstein (i : Int) 3 u * bernstein (j : Int) 3 v) * f (i * 4 + j) ≤ hi := by
  have hsum : ∑ i in Finset.range 4, ∑ j in Finset.range 4,
      (bernstein (i : Int) 3 u * bernstein (j : Int) 3 v) * hi = hi := by
    simp only [← Finset.sum_mul, bernstein_partition_of_unity_aux u v, one_mul]
  refine le_trans (Finset.sum_le_sum (fun i hi' => Finset.sum_le_sum (fun j hj => ?_)))
    (le_of_eq hsum)
  have hi4 : i < 4 := Finset.mem_range.mp hi'
  have hj4 : j < 4 := Finset.mem_range.mp hj
  exact mul_le_mul_of_nonneg_left (hhi _ (by omega))
    (weight_nonneg u v hu0 hu1 hv0 hv1 i j hi4 hj4)

/-- A weighted sum with the weights of `evaluate` lies between the minimum and
the maximum of the sixteen values. -/
theorem weighted_sum_between (f : Nat → α) (u v : α)
    (hu0 : 0 ≤ u) (hu1 : u ≤ 1) (hv0 : 0 ≤ v) (hv1 : v ≤ 1) :
    (Finset.range 16).inf' Finset.nonempty_range_succ f ≤
        ∑ i in Finset.range 4, ∑ j in Finset.range 4,
          (bernstein (i : Int) 3 u * bernstein (j : Int) 3 v) * f (i * 4 + j) ∧
      ∑ i in Finset.range 4, ∑ j in Finset.range 4,
          (bernstein (i : Int) 3 u * bernstein (j : Int) 3 v) * f (i * 4 + j) ≤
        (Finset.range 16).sup' Finset.nonempty_range_succ f :=
  ⟨weighted_sum_lower f _ (fun _ hk => Finset.inf'_le f (Finset.mem_range.mpr hk)) u v
      hu0 hu1 hv0 hv1,
   weighted_sum_upper f _ (fun _ hk => Finset.le_sup' f (Finset.mem_range.mpr hk)) u v
      hu0 hu1 hv0 hv1⟩

/-- C7: convex-hull property.  For `u`, `v` in `[0,1]` every weight
`bernstein(i,3,u) * bernstein(j,3,v)` is non-negative, the weights sum to one,
`evaluate(u,v)` is the combination of the control points with these weights, and
each coordinate of `evaluate(u,v)` lies between the minimum and the maximum of
that coordinate over the sixteen control points. -/
theorem evaluate_convex_hull (p : BezierPatch α) (u v : α)
    (hu0 : 0 ≤ u) (hu1 : u ≤ 1) (hv0 : 0 ≤ v) (hv1 : v ≤ 1) :
    (∀ i j : Nat, i < 4 → j < 4 → 0 ≤ bernstein (i : Int) 3 u * bernstein (j : Int) 3 v) ∧
    (∑ i in Finset.range 4, ∑ j in Finset.range 4,
      bernstein (i : Int) 3 u * bernstein (j : Int) 3 v = 1) ∧
    ((p.evaluate u v).x = ∑ i in Finset.range 4, ∑ j in Finset.range 4,
        (bernstein (i : Int) 3 u * bernstein (j : Int) 3 v) *
          (p.controlPoints.getD (i * 4 + j) Point3D.zero).x ∧
      (p.evaluate u v).y = ∑ i in Finset.range 4, ∑ j in Finset.range 4,
        (bernstein (i : Int) 3 u * bernstein (j : Int) 3 v) *
          (p.controlPoints.getD (i * 4 + j) Point3D.zero).y ∧
      (p.evaluate u v).z = ∑ i in Finset.range 4, ∑ j in Finset.range 4,
        (bernstein (i : Int) 3 u * bernstein (j : Int) 3 v) *
          (p.controlPoints.getD (i * 4 + j) Point3D.zero).z) ∧
    ((Finset.range 16).inf' Finset.nonempty_range_succ
          (fun k => (p.controlPoints.getD k Point3D.zero).x) ≤ (p.evaluate u v).x ∧
      (p.evaluate u v).x ≤ (Finset.range 16).sup' Finset.nonempty_range_succ
          (fun k => (p.controlPoints.getD k Point3D.zero).x)) ∧
    ((Finset.range 16).inf' Finset.nonempty_range_succ
          (fun k => (p.controlPoints.getD k Point3D.zero).y) ≤ (p.evaluate u v).y ∧
      (p.evaluate u v).y ≤ (Finset.range 16).sup' Finset.nonempty_range_succ
          (fun k => (p.controlPoints.getD k Point3D.zero).y)) ∧
    ((Finset.range 16).inf' Finset.nonempty_range_succ
          (fun k => (p.controlPoints.getD k Point3D.zero).z) ≤ (p.evaluate u v).z ∧
      (p.evaluate u v).z ≤ (Finset.range 16).sup' Finset.nonempty_range_succ
          (fun k => (p.controlPoints.getD k Point3D.zero).z)) := by
  refine ⟨fun i j hi hj => weight_nonneg u v hu0 hu1 hv0 hv1 i j hi hj,
    bernstein_partition_of_unity_aux u v,
    ⟨evaluatePoints_x _ u v, evaluatePoints_y _ u v, evaluatePoints_z _ u v⟩, ?_, ?_, ?_⟩
  · rw [BezierPatch.evaluate, evaluatePoints_x]
    exact weighted_sum_between (fun k => (p.controlPoints.getD k Point3D.zero).x) u v
      hu0 hu1 hv0 hv1
  · rw [BezierPatch.evaluate, evaluatePoints_y]
    exact weighted_sum_between (fun k => (p.controlPoints.getD k Point3D.zero).y) u v
      hu0 hu1 hv0 hv1
  · rw [BezierPatch.evaluate, evaluatePoints_z]
    exact weighted_sum_between (fun k => (p.controlPoints.getD k Point3D.zero).z) u v
      hu0 hu1 hv0 hv1

/-- C7 at the patch of the program and the parameters `(1/2, 1/2)`: the height of
the surface point lies between the lowest and the highest control point. -/
theorem evaluate_convex_hull_witness :
    (0 : ℚ) ≤ 1 / 2 ∧ (1 / 2 : ℚ) ≤ 1 ∧
    ((Finset.range 16).inf' Finset.nonempty_range_succ
        (fun k => ((initialControlPoints : List (Point3D ℚ)).getD k Point3D.zero).y) ≤
      ((⟨initialControlPoints, [], [], [], [], 12⟩ : BezierPatch ℚ).evaluate (1 / 2) (1 / 2)).y ∧
    ((⟨initialControlPoints, [], [], [], [], 12⟩ : BezierPatch ℚ).evaluate (1 / 2) (1 / 2)).y ≤
      (Finset.range 16).sup' Finset.nonempty_range_succ
        (fun k => ((initialControlPoints : List (Point3D ℚ)).getD k Point3D.zero).y)) :=
  ⟨by norm_num, by norm_num,
    (evaluate_convex_hull (⟨initialControlPoints, [], [], [], [], 12⟩ : BezierPatch ℚ)
      (1 / 2) (1 / 2) (by norm_num) (by norm_num) (by norm_num) (by norm_num)).2.2.2.2.1⟩

end ConvexHull

end Main3_1

namespace Main3_1

section Normals

/-- The sum of squares under the square root of `calculateNormal`. -/
theorem sumSquares_eq_zero (a b c : ℝ) (h : a * a + b * b + c * c = 0) :
    a = 0 ∧ b = 0 ∧ c = 0 := by
  have ha := mul_self_nonneg a
  have hb := mul_self_nonneg b
  have hc := mul_self_nonneg c
  refine ⟨?_, ?_, ?_⟩ <;> apply mul_self_eq_zero.mp <;> linarith

/-- In real arithmetic `calculateNormal` returns the normalised cross product
of the two tangents, of length one, when the cross product is not the zero
vector, and the zero vector when it is. -/
theorem calculateNormalPoints_cases (cp : List (Point3D ℝ)) (u v : ℝ) :
    (crossProduct (tangentU cp u v) (tangentV cp u v) ≠ Point3D.zero ∧
      calculateNormalPoints Real.sqrt cp u v =
        (crossProduct (tangentU cp u v) (tangentV cp u v)).divide
          ((crossProduct (tangentU cp u v) (tangentV cp u v)).length Real.sqrt) ∧
      (calculateNormalPoints Real.sqrt cp u v).length Real.sqrt = 1) ∨
    (crossProduct (tangentU cp u v) (tangentV cp u v) = Point3D.zero ∧
      calculateNormalPoints Real.sqrt cp u v = Point3D.zero) := by
  simp only [Point3D.length, Point3D.divide]
  generalize hN : crossProduct (tangentU cp u v) (tangentV cp u v) = N
  have hr : calculateNormalPoints Real.sqrt cp u v =
      if Real.sqrt (N.x * N.x + N.y * N.y + N.z * N.z) > 0 then
        ⟨N.x / Real.sqrt (N.x * N.x + N.y * N.y + N.z * N.z),
          N.y / Real.sqrt (N.x * N.x + N.y * N.y + N.z * N.z),
          N.z / Real.sqrt (N.x * N.x + N.y * N.y + N.z * N.z)⟩
      else N := by
    simp only [calculateNormalPoints, hN]
  have hS : 0 ≤ N.x * N.x + N.y * N.y + N.z * N.z := by
    have ha := mul_self_nonneg N.x
    have hb := mul_self_nonneg N.y
    have hc := mul_self_nonneg N.z
    linarith
  rw [hr]
  by_cases hlen : Real.sqrt (N.x * N.x + N.y * N.y + N.z * N.z) > 0
  · left
    rw [if_pos hlen]
    refine ⟨?_, rfl, ?_⟩
    · intro h0
      have : N.x * N.x + N.y * N.y + N.z * N.z = 0 := by
        rw [h0]; simp [Point3D.zero]
      rw [this, Real.sqrt_zero] at hlen
      exact lt_irrefl _ hlen
    · have hsq : Real.sqrt (N.x * N.x + N.y * N.y + N.z * N.z) *
          Real.sqrt (N.x * N.x + N.y * N.y + N.z * N.z) =
          N.x * N.x + N.y * N.y + N.z * N.z := Real.mul_self_sqrt hS
      generalize Real.sqrt (N.x * N.x + N.y * N.y + N.z * N.z) = L at hlen hsq ⊢
      have hne : L ≠ 0 := ne_of_gt hlen
      have e : N.x / L * (N.x / L) + N.y / L * (N.y / L) + N.z / L * (N.z / L) =
          (N.x * N.x + N.y * N.y + N.z * N.z) / (L * L) := by
        field_simp
      have hLL : L * L ≠ 0 := mul_ne_zero hne hne
      simp only [e, ← hsq, div_self hLL, Real.sqrt_one]
  · right
    rw [if_neg hlen]
    have h0 : Real.sqrt (N.x * N.x + N.y * N.y + N.z * N.z) = 0 :=
      le_antisymm (not_lt.mp hlen) (Real.sqrt_nonneg _)
    have hz : N.x * N.x + N.y * N.y + N.z * N.z = 0 := (Real.sqrt_eq_zero hS).mp h0
    obtain ⟨hx, hy, hz'⟩ := sumSquares_eq_zero _ _ _ hz
    have : N = Point3D.zero := Point3D.eq_of_coords _ _ hx hy hz'
    exact ⟨this, this⟩

/-- The zero vector has length zero. -/
theorem Point3D.length_zero : (Point3D.zero : Point3D ℝ).length Real.sqrt = 0 := by
  simp [Point3D.length, Point3D.zero]

/-- The three facts on `calculateNormal` in terms of the vector `normal` that the
method forms before normalising. -/
theorem calculateNormal_cases_aux (p : BezierPatch ℝ) (u v : ℝ) :
    ((p.tangentCross u v ≠ Point3D.zero ∧
        p.calculateNormal Real.sqrt u v =
          (p.tangentCross u v).divide ((p.tangentCross u v).length Real.sqrt) ∧
        (p.calculateNormal Real.sqrt u v).length Real.sqrt = 1) ∨
      (p.tangentCross u v = Point3D.zero ∧
        p.calculateNormal Real.sqrt u v = Point3D.zero)) ∧
    (p.calculateNormal Real.sqrt u v = Point3D.zero ↔ p.tangentCross u v = Point3D.zero) ∧
    (∀ nrm ∈ (p.tessellate Real.sqrt).normals,
      nrm.length Real.sqrt = 1 ∨ (nrm = Point3D.zero ∧ nrm.length Real.sqrt = 0)) := by
  refine ⟨calculateNormalPoints_cases p.controlPoints u v, ?_, ?_⟩
  · rcases calculateNormalPoints_cases p.controlPoints u v with ⟨hne, -, hlen⟩ | ⟨h0, hr⟩
    · constructor
      · intro h
        rw [BezierPatch.calculateNormal] at h
        rw [h, Point3D.length_zero] at hlen
        exact absurd hlen (by norm_num)
      · intro h
        exact absurd h hne
    · exact ⟨fun _ => h0, fun _ => hr⟩
  · intro nrm hmem
    rw [tessellate_eq] at hmem
    simp only [List.mem_flatMap, List.mem_map] at hmem
    obtain ⟨i, -, j, -, rfl⟩ := hmem
    rcases calculateNormalPoints_cases p.controlPoints ((i : ℝ) / (p.resolution : ℝ))
      ((j : ℝ) / (p.resolution : ℝ)) with ⟨-, -, hlen⟩ | ⟨-, hr⟩
    · exact Or.inl hlen
    · exact Or.inr ⟨hr, by rw [hr]; exact Point3D.length_zero⟩

/-- C8: in exact real arithmetic, with `Tu = evaluate(u+0.01,v) - evaluate(u,v)`,
`Tv = evaluate(u,v+0.01) - evaluate(u,v)` and `N = Tu × Tv`,
`calculateNormal(u,v)` returns either the vector `N/|N|`, of Euclidean length
exactly 1, or, exactly when `N` is the zero vector, the zero vector; hence every
normal emitted by `tessellate` has length 1 or is the zero vector (of length 0). -/
theorem calculateNormal_unit_or_zero (p : BezierPatch ℝ) (u v : ℝ) (Tu Tv N : Point3D ℝ)
    (hTu : Tu = ⟨(p.evaluate (u + 1 / 100) v).x - (p.evaluate u v).x,
      (p.evaluate (u + 1 / 100) v).y - (p.evaluate u v).y,
      (p.evaluate (u + 1 / 100) v).z - (p.evaluate u v).z⟩)
    (hTv : Tv = ⟨(p.evaluate u (v + 1 / 100)).x - (p.evaluate u v).x,
      (p.evaluate u (v + 1 / 100)).y - (p.evaluate u v).y,
      (p.evaluate u (v + 1 / 100)).z - (p.evaluate u v).z⟩)
    (hN : N = ⟨Tu.y * Tv.z - Tu.z * Tv.y, Tu.z * Tv.x - Tu.x * Tv.z,
      Tu.x * Tv.y - Tu.y * Tv.x⟩) :
    ((N ≠ ⟨0, 0, 0⟩ ∧
        p.calculateNormal Real.sqrt u v =
          ⟨N.x / Real.sqrt (N.x * N.x + N.y * N.y + N.z * N.z),
            N.y / Real.sqrt (N.x * N.x + N.y * N.y + N.z * N.z),
            N.z / Real.sqrt (N.x * N.x + N.y * N.y + N.z * N.z)⟩ ∧
        Real.sqrt ((p.calculateNormal Real.sqrt u v).x * (p.calculateNormal Real.sqrt u v).x +
          (p.calculateNormal Real.sqrt u v).y * (p.calculateNormal Real.sqrt u v).y +
          (p.calculateNormal Real.sqrt u v).z * (p.calculateNormal Real.sqrt u v).z) = 1) ∨
      (N = ⟨0, 0, 0⟩ ∧ p.calculateNormal Real.sqrt u v = ⟨0, 0, 0⟩)) ∧
    (p.calculateNormal Real.sqrt u v = ⟨0, 0, 0⟩ ↔ N = ⟨0, 0, 0⟩) ∧
    (∀ nrm ∈ (p.tessellate Real.sqrt).normals,
      Real.sqrt (nrm.x * nrm.x + nrm.y * nrm.y + nrm.z * nrm.z) = 1 ∨
        (nrm = ⟨0, 0, 0⟩ ∧
          Real.sqrt (nrm.x * nrm.x + nrm.y * nrm.y + nrm.z * nrm.z) = 0)) := by
  have hN' : N = p.tangentCross u v := by
    rw [hN, hTu, hTv]
    rfl
  rw [hN']
  exact calculateNormal_cases_aux p u v

end Normals

end Main3_1

/-! ## The picking protocol -/

namespace MainPart2

section Encoding

/-- A 24-bit number is the union of its three bytes shifted back into place. -/
theorem byte_split (n : Nat) (h : n < 2 ^ 24) :
    (((n &&& 0xFF0000) >>> 16) <<< 16 ||| ((n &&& 0x00FF00) >>> 8) <<< 8) |||
      (n &&& 0x0000FF) = n := by
  apply Nat.eq_of_testBit_eq
  intro i
  have e1 : (0xFF0000 : Nat) = (2 ^ 8 - 1) <<< 16 := by decide
  have e2 : (0x00FF00 : Nat) = (2 ^ 8 - 1) <<< 8 := by decide
  have e3 : (0x0000FF : Nat) = 2 ^ 8 - 1 := by decide
  rw [e1, e2, e3]
  simp only [Nat.testBit_or, Nat.testBit_shiftLeft, Nat.testBit_shiftRight, Nat.testBit_and,
    Nat.testBit_two_pow_sub_one]
  by_cases h24 : 24 ≤ i
  · have hb : n.testBit i = false :=
      Nat.testBit_lt_two_pow (lt_of_lt_of_le h (Nat.pow_le_pow_right (by decide) h24))
    have a1 : 16 + (i - 16) = i := by omega
    have a2 : 8 + (i - 8) = i := by omega
    simp [hb, a1, a2]
  · by_cases h16 : 16 ≤ i
    · have a1 : 16 + (i - 16) = i := by omega
      have a2 : 8 + (i - 8) = i := by omega
      have c1 : i - 16 < 8 := by omega
      cases hb : n.testBit i <;> simp [a1, a2, h16, c1, hb]
    · by_cases h8 : 8 ≤ i
      · have a2 : 8 + (i - 8) = i := by omega
        have c1 : i - 8 < 8 := by omega
        cases hb : n.testBit i <;> simp [a2, h8, h16, c1, hb]
      · have c1 : i < 8 := by omega
        cases hb : n.testBit i <;> simp [h8, h16, c1, hb]

/-- The picking colour of a non-negative identity, in terms of operations on
natural numbers. -/
theorem pickingColor_natCast (n : Nat) :
    pickingColor (n : Int) =
      ((((n &&& 0xFF0000) >>> 16 : Nat) : Int), (((n &&& 0x00FF00) >>> 8 : Nat) : Int),
        ((n &&& 0x0000FF : Nat) : Int)) := by
  unfold pickingColor
  refine Prod.ext ?_ (Prod.ext ?_ ?_)
  · exact Int.shiftRight_coe_nat (n &&& 0xFF0000) 16
  · exact Int.shiftRight_coe_nat (n &&& 0x00FF00) 8
  · rfl

/-- Each channel of the picking colour of a non-negative identity is a byte. -/
theorem pickingColor_bytes (n : Nat) :
    (n &&& 0xFF0000) >>> 16 < 256 ∧ (n &&& 0x00FF00) >>> 8 < 256 ∧ n &&& 0x0000FF < 256 := by
  have h1 : n &&& 0xFF0000 ≤ 0xFF0000 := Nat.and_le_right
  have h2 : n &&& 0x00FF00 ≤ 0x00FF00 := Nat.and_le_right
  have h3 : n &&& 0x0000FF ≤ 0x0000FF := Nat.and_le_right
  simp only [Nat.shiftRight_eq_div_pow]
  refine ⟨?_, ?_, ?_⟩ <;> omega

/-- The decoding of `pickObject` in terms of operations on natural numbers. -/
theorem decodeId_eq (px : Pixel) :
    decodeId px = (((px.r.val <<< 16 ||| px.g.val <<< 8) ||| px.b.val : Nat) : Int) := by
  unfold decodeId
  have h1 : ((px.r.val : Nat) : Int) <<< (16 : Int) = ((px.r.val <<< 16 : Nat) : Int) :=
    Int.shiftLeft_coe_nat px.r.val 16
  have h2 : ((px.g.val : Nat) : Int) <<< (8 : Int) = ((px.g.val <<< 8 : Nat) : Int) :=
    Int.shiftLeft_coe_nat px.g.val 8
  rw [h1, h2]
  rfl

/-- A byte passes through the `GLubyte` conversion unchanged. -/
theorem toGLubyte_natCast (n : Nat) (h : n < 256) : (toGLubyte (n : Int)).val = n := by
  simp only [toGLubyte]
  omega

end Encoding

end MainPart2

namespace MainPart2

section Search

variable {α : Type} [LinearOrderedField α]

/-- The search loop finds nothing when the identity is the sentinel `0` or no
object carries it. -/
theorem pickSearch_none (id : Int) (l : List (MeshObject α)) (k : Nat)
    (h : id = 0 ∨ ∀ o ∈ l, o.objectId ≠ id) : pickSearch id l k = -1 := by
  induction l generalizing k with
  | nil => rfl
  | cons a t ih =>
    have hcond : ¬ (a.getObjectId = id ∧ id ≠ 0) := by
      rintro ⟨ha, hid⟩
      rcases h with h | h
      · exact hid h
      · exact h a (List.mem_cons_self a t) ha
    rw [pickSearch, if_neg hcond]
    apply ih
    rcases h with h | h
    · exact Or.inl h
    · exact Or.inr (fun o ho => h o (List.mem_cons_of_mem a ho))

/-- The search loop returns the first position that carries a non-zero identity
present in the collection. -/
theorem pickSearch_found (id : Int) (hid : id ≠ 0) (l : List (MeshObject α)) (k : Nat)
    (h : ∃ o ∈ l, o.objectId = id) :
    ∃ i : Nat, i < l.length ∧ pickSearch id l k = ((k + i : Nat) : Int) ∧
      (∃ o, l[i]? = some o ∧ o.objectId = id) ∧
      ∀ j : Nat, j < i → ∀ o, l[j]? = some o → o.objectId ≠ id := by
  induction l generalizing k with
  | nil =>
    obtain ⟨o, ho, -⟩ := h
    cases ho
  | cons a t ih =>
    by_cases ha : a.objectId = id
    · refine ⟨0, by simp, ?_, ⟨a, by simp, ha⟩, fun j hj => absurd hj (Nat.not_lt_zero j)⟩
      have hcond : a.getObjectId = id ∧ id ≠ 0 := ⟨ha, hid⟩
      rw [pickSearch, if_pos hcond]
      simp
    · have hcond : ¬ (a.getObjectId = id ∧ id ≠ 0) := fun hc => ha hc.1
      have ht : ∃ o ∈ t, o.objectId = id := by
        obtain ⟨o, ho, hoid⟩ := h
        rcases List.mem_cons.mp ho with rfl | ho'
        · exact absurd hoid ha
        · exact ⟨o, ho', hoid⟩
      obtain ⟨i, hi, hres, ⟨o, hget, hoid⟩, hmin⟩ := ih (k + 1) ht
      refine ⟨i + 1, by simp [hi], ?_, ⟨o, by simpa using hget, hoid⟩, ?_⟩
      · rw [pickSearch, if_neg hcond, hres]
        congr 1
        omega
      · intro j hj o' hget'
        cases j with
        | zero =>
          simp at hget'
          rw [← hget']
          exact ha
        | succ j' =>
          simp at hget'
          exact hmin j' (by omega) o' hget'

end Search

end MainPart2

namespace MainPart2

section PickingClaims

variable {α : Type} [LinearOrderedField α]

/-- In picking mode `render` issues `glColor3ub` with the picking colour of the
object, which is what a covered pixel of the picking surface then holds. -/
theorem render_emits_pickingPixel (m : MeshObject α) :
    GLCmd.glColor3ub (pickingPixel m.objectId).r (pickingPixel m.objectId).g
      (pickingPixel m.objectId).b ∈ m.render true := by
  simp [MeshObject.render, pickingPixel]

/-- C2: picking round trip.  For every identity `k` with `0 < k ≤ 0xFFFFFF`,
splitting `k` into `r = (k & 0xFF0000) >> 16`, `g = (k & 0x00FF00) >> 8`,
`b = k & 0x0000FF` as `render` does in picking mode and decoding
`(r << 16) | (g << 8) | b` as `pickObject` does yields exactly `k`; the same
holds when the three values pass through the bytes of the pixel. -/
theorem picking_round_trip (k : Int) (h0 : 0 < k) (h1 : k ≤ 0xFFFFFF) :
    Int.lor (Int.lor ((pickingColor k).1 <<< (16 : Int)) ((pickingColor k).2.1 <<< (8 : Int)))
        (pickingColor k).2.2 = k ∧
      decodeId (pickingPixel k) = k := by
  obtain ⟨n, rfl⟩ : ∃ n : Nat, k = (n : Int) := ⟨k.toNat, by omega⟩
  have hn : n < 2 ^ 24 := by omega
  obtain ⟨b1, b2, b3⟩ := pickingColor_bytes n
  constructor
  · rw [pickingColor_natCast]
    have e1 : ((((n &&& 0xFF0000) >>> 16 : Nat) : Int)) <<< (16 : Int) =
        ((((n &&& 0xFF0000) >>> 16) <<< 16 : Nat) : Int) := Int.shiftLeft_coe_nat _ 16
    have e2 : ((((n &&& 0x00FF00) >>> 8 : Nat) : Int)) <<< (8 : Int) =
        ((((n &&& 0x00FF00) >>> 8) <<< 8 : Nat) : Int) := Int.shiftLeft_coe_nat _ 8
    simp only [e1, e2]
    exact congrArg Nat.cast (byte_split n hn)
  · rw [decodeId_eq]
    simp only [pickingPixel, pickingColor_natCast]
    rw [toGLubyte_natCast _ b1, toGLubyte_natCast _ b2, toGLubyte_natCast _ b3]
    exact congrArg Nat.cast (byte_split n hn)

/-- C2 at the identity `0x123456`. -/
theorem picking_round_trip_witness :
    (0 : Int) < 0x123456 ∧ (0x123456 : Int) ≤ 0xFFFFFF ∧
      pickingColor 0x123456 = (0x12, 0x34, 0x56) ∧ decodeId (pickingPixel 0x123456) = 0x123456 :=
  ⟨by decide, by decide, by decide, (picking_round_trip 0x123456 (by decide) (by decide)).2⟩

/-- C3: when the pixel read back is the background `(0,0,0)`, `pickObject` returns
`-1`, whatever the collection holds (an object of identity `0` included); and any
index that `pickObject` returns designates an object of non-zero identity. -/
theorem pickObject_never_sentinel (ps : PickingSystem) (glReadPixels : Int → Int → Pixel)
    (mouseX mouseY : Int) (objects : List (MeshObject α)) :
    (glReadPixels mouseX (ps.windowHeight - mouseY - 1) = ⟨0, 0, 0⟩ →
      ps.pickObject glReadPixels mouseX mouseY objects = -1) ∧
    (∀ i : Nat, ps.pickObject glReadPixels mouseX mouseY objects = (i : Int) →
      ∃ obj, objects[i]? = some obj ∧ obj.objectId ≠ 0) := by
  constructor
  · intro hbg
    simp only [PickingSystem.pickObject, hbg]
    exact pickSearch_none _ _ _ (Or.inl (by decide))
  · intro i hi
    simp only [PickingSystem.pickObject] at hi
    by_cases hfound : decodeId (glReadPixels mouseX (ps.windowHeight - mouseY - 1)) ≠ 0 ∧
        ∃ o ∈ objects, o.objectId = decodeId (glReadPixels mouseX (ps.windowHeight - mouseY - 1))
    · obtain ⟨i', -, hres, ⟨o, hget, hoid⟩, -⟩ := pickSearch_found _ hfound.1 objects 0 hfound.2
      rw [hres] at hi
      have : i' = i := by omega
      subst this
      exact ⟨o, hget, by rw [hoid]; exact hfound.1⟩
    · have hnone := pickSearch_none
        (decodeId (glReadPixels mouseX (ps.windowHeight - mouseY - 1))) objects 0
        (by
          by_cases hz : decodeId (glReadPixels mouseX (ps.windowHeight - mouseY - 1)) = 0
          · exact Or.inl hz
          · exact Or.inr (fun o ho hoid => hfound ⟨hz, o, ho, hoid⟩))
      rw [hnone] at hi
      omega

/-- Three bytes joined by shifts and ors are the number with these base-256
digits. -/
theorem bytes_join_arith (r g b : Nat) (hg : g < 256) (hb : b < 256) :
    (r <<< 16 ||| g <<< 8) ||| b = r * 65536 + g * 256 + b := by
  have h1 : 2 ^ 8 * g + b = 2 ^ 8 * g ||| b := Nat.mul_add_lt_is_or (by omega) g
  have h2 : 2 ^ 16 * r + (2 ^ 8 * g + b) = 2 ^ 16 * r ||| (2 ^ 8 * g + b) :=
    Nat.mul_add_lt_is_or (by omega) r
  rw [Nat.shiftLeft_eq, Nat.shiftLeft_eq, Nat.lor_assoc, Nat.mul_comm r, Nat.mul_comm g,
    ← h1, ← h2]
  omega

/-- C4: for every pixel `(r, g, b)` of bytes read back and every ordered
collection, with `id = (r << 16) | (g << 8) | b` (the number
`r·65536 + g·256 + b`): `pickObject` returns the smallest index `i` with
`objects[i].objectId == id` when `id != 0` and such an object exists, and `-1`
otherwise; the result is `-1` or a valid index below `objects.size()`. -/
theorem pickObject_spec (ps : PickingSystem) (glReadPixels : Int → Int → Pixel)
    (mouseX mouseY : Int) (objects : List (MeshObject α)) (r g b : Fin 256) (id : Int)
    (hpx : glReadPixels mouseX (ps.windowHeight - mouseY - 1) = ⟨r, g, b⟩)
    (hid : id = Int.lor (Int.lor (((r.val : Nat) : Int) <<< (16 : Int))
      (((g.val : Nat) : Int) <<< (8 : Int))) ((b.val : Nat) : Int)) :
    id = (r.val : Int) * 65536 + (g.val : Int) * 256 + (b.val : Int) ∧
    ((id ≠ 0 ∧ ∃ o ∈ objects, o.objectId = id) →
      ∃ i : Nat, ps.pickObject glReadPixels mouseX mouseY objects = (i : Int) ∧
        i < objects.length ∧ (∃ o, objects[i]? = some o ∧ o.objectId = id) ∧
        ∀ j : Nat, j < i → ∀ o, objects[j]? = some o → o.objectId ≠ id) ∧
    (∀ (i : Nat) (o : MeshObject α), id ≠ 0 → objects[i]? = some o → o.objectId = id →
      (∀ j : Nat, j < i → ∀ o', objects[j]? = some o' → o'.objectId ≠ id) →
      ps.pickObject glReadPixels mouseX mouseY objects = (i : Int)) ∧
    (¬ (id ≠ 0 ∧ ∃ o ∈ objects, o.objectId = id) →
      ps.pickObject glReadPixels mouseX mouseY objects = -1) ∧
    (ps.pickObject glReadPixels mouseX mouseY objects = -1 ∨
      (0 ≤ ps.pickObject glReadPixels mouseX mouseY objects ∧
        ps.pickObject glReadPixels mouseX mouseY objects < (objects.length : Int))) := by
  have hdec : decodeId ⟨r, g, b⟩ = id := by rw [hid]; rfl
  have harith : id = (r.val : Int) * 65536 + (g.val : Int) * 256 + (b.val : Int) := by
    rw [← hdec, decodeId_eq]
    have := bytes_join_arith r.val g.val b.val g.isLt b.isLt
    simp only [this]
    push_cast
    rfl
  have hfoundCase : (id ≠ 0 ∧ ∃ o ∈ objects, o.objectId = id) →
      ∃ i : Nat, ps.pickObject glReadPixels mouseX mouseY objects = (i : Int) ∧
        i < objects.length ∧ (∃ o, objects[i]? = some o ∧ o.objectId = id) ∧
        ∀ j : Nat, j < i → ∀ o, objects[j]? = some o → o.objectId ≠ id := by
    intro hfound
    obtain ⟨i, hi, hres, hget, hmin⟩ := pickSearch_found _ hfound.1 objects 0 hfound.2
    refine ⟨i, ?_, hi, hget, hmin⟩
    simp only [PickingSystem.pickObject, hpx, hdec, hres]
    congr 1
    omega
  have hnoneCase : ¬ (id ≠ 0 ∧ ∃ o ∈ objects, o.objectId = id) →
      ps.pickObject glReadPixels mouseX mouseY objects = -1 := by
    intro hnot
    simp only [PickingSystem.pickObject, hpx, hdec]
    apply pickSearch_none
    by_cases hz : id = 0
    · exact Or.inl hz
    · exact Or.inr (fun o ho hoid => hnot ⟨hz, o, ho, hoid⟩)
  refine ⟨harith, hfoundCase, ?_, hnoneCase, ?_⟩
  · intro i o hne hget hoid hmin
    obtain ⟨i', hres, hi', ⟨o', hget', hoid'⟩, hmin'⟩ :=
      hfoundCase ⟨hne, o, List.getElem?_mem hget, hoid⟩
    rw [hres]
    rcases Nat.lt_trichotomy i' i with hlt | heq | hgt
    · exact absurd hoid' (hmin i' hlt o' hget')
    · rw [heq]
    · exact absurd hoid (hmin' i hgt o hget)
  · by_cases hfound : id ≠ 0 ∧ ∃ o ∈ objects, o.objectId = id
    · obtain ⟨i, hres, hi, -, -⟩ := hfoundCase hfound
      right
      rw [hres]
      omega
    · exact Or.inl (hnoneCase hfound)

/-- C3 at a collection holding an object of identity `0`: a background pixel
still selects nothing. -/
theorem pickObject_never_sentinel_witness :
    PickingSystem.init.pickObject (fun _ _ => (⟨0, 0, 0⟩ : Pixel)) 400 300
      ([MeshObject.create ⟨0, 0, 0⟩ ⟨1, 0, 0⟩ 0 1,
        MeshObject.create ⟨2, 0, 0⟩ ⟨0, 1, 0⟩ 5 1] : List (MeshObject ℚ)) = -1 :=
  (pickObject_never_sentinel PickingSystem.init (fun _ _ => (⟨0, 0, 0⟩ : Pixel)) 400 300
    ([MeshObject.create ⟨0, 0, 0⟩ ⟨1, 0, 0⟩ 0 1,
      MeshObject.create ⟨2, 0, 0⟩ ⟨0, 1, 0⟩ 5 1] : List (MeshObject ℚ))).1 rfl

/-- C4 at the scene of the program: a pixel `(0, 255, 0)` decodes to `0xFF00` and
selects index 1, the green cube; a pixel `(1, 2, 3)` decodes to `66051`, the
identity of no object, and selects nothing. -/
theorem pickObject_spec_witness :
    ((fun (_ _ : Int) => (⟨0, 255, 0⟩ : Pixel)) 400 (PickingSystem.init.windowHeight - 300 - 1)
        = ⟨0, 255, 0⟩ ∧
      (0xFF00 : Int) = Int.lor (Int.lor ((((0 : Fin 256).val : Nat) : Int) <<< (16 : Int))
        ((((255 : Fin 256).val : Nat) : Int) <<< (8 : Int))) (((0 : Fin 256).val : Nat) : Int)) ∧
    PickingSystem.init.pickObject (fun _ _ => (⟨0, 255, 0⟩ : Pixel)) 400 300
      (initializeObjects : List (MeshObject ℚ)) = 1 ∧
    PickingSystem.init.pickObject (fun _ _ => (⟨1, 2, 3⟩ : Pixel)) 400 300
      (initializeObjects : List (MeshObject ℚ)) = -1 :=
  ⟨⟨rfl, by decide⟩,
    (pickObject_spec PickingSystem.init (fun _ _ => (⟨0, 255, 0⟩ : Pixel)) 400 300
      (initializeObjects : List (MeshObject ℚ)) 0 255 0 0xFF00 rfl (by decide)).2.2.1 1
      (MeshObject.create ⟨0, 0, 0⟩ ⟨0, 1, 0⟩ 0x00FF00 (8 / 10)) (by decide) rfl rfl
      (by
        intro j hj o hget
        have hj0 : j = 0 := by omega
        subst hj0
        simp only [initializeObjects, List.getElem?_cons_zero, Option.some.injEq] at hget
        subst hget
        decide),
    (pickObject_spec PickingSystem.init (fun _ _ => (⟨1, 2, 3⟩ : Pixel)) 400 300
      (initializeObjects : List (MeshObject ℚ)) 1 2 3 66051 rfl (by decide)).2.2.2.1
      (by
        rintro ⟨-, o, ho, hoid⟩
        simp only [initializeObjects, List.mem_cons, List.mem_singleton, List.not_mem_nil,
          or_false] at ho
        rcases ho with rfl | rfl | rfl <;> exact absurd hoid (by decide))⟩

end PickingClaims

end MainPart2

/-! ## The orbit camera -/

namespace Main3_1

section CameraLemmas

variable {α : Type} [LinearOrderedField α]

/-- The clamp of `Camera::zoom` written with `max` and `min`. -/
theorem stdMax_stdMin_eq (x : α) : stdMax 1 (stdMin 20 x) = max 1 (min 20 x) := by
  unfold stdMax stdMin
  rcases lt_trichotomy x 20 with h | h | h
  · rw [if_pos h, min_eq_right h.le]
    rcases lt_trichotomy 1 x with h1 | h1 | h1
    · rw [if_pos h1, max_eq_right h1.le]
    · subst h1
      simp
    · rw [if_neg (not_lt.mpr h1.le), max_eq_left h1.le]
  · subst h
    have h1 : (1 : α) < 20 := by norm_num
    simp [h1, h1.le]
  · rw [if_neg (not_lt.mpr h.le), min_eq_left h.le, if_pos (by norm_num),
      max_eq_right (by norm_num)]

/-- One call of `zoom` leaves the distance `max(1, min(20, d + delta))`. -/
theorem zoom_distance (c : Camera α) (delta : α) :
    (c.zoom delta).cameraDistance = max 1 (min 20 (c.cameraDistance + delta)) := by
  simp only [Camera.zoom, stdMax_stdMin_eq]

/-- After at least one call of `zoom` the distance is in `[1, 20]`. -/
theorem zoom_sequence_range (c : Camera α) (deltas : List α) (h : deltas ≠ []) :
    1 ≤ (deltas.foldl Camera.zoom c).cameraDistance ∧
      (deltas.foldl Camera.zoom c).cameraDistance ≤ 20 := by
  rcases List.eq_nil_or_concat deltas with hnil | ⟨front, d, rfl⟩
  · exact absurd hnil h
  · rw [List.concat_eq_append, List.foldl_append, List.foldl_cons, List.foldl_nil, zoom_distance]
    exact ⟨le_max_left _ _, max_le (by norm_num) (min_le_left _ _)⟩

end CameraLemmas

end Main3_1

namespace MainPart2

section CameraLemmas

variable {α : Type} [LinearOrderedField α]

/-- The clamp of `Camera::zoom` written with `max` and `min`. -/
theorem stdMax_stdMin_eq_part2 (x : α) : stdMax 1 (stdMin 20 x) = max 1 (min 20 x) := by
  unfold stdMax stdMin
  rcases lt_trichotomy x 20 with h | h | h
  · rw [if_pos h, min_eq_right h.le]
    rcases lt_trichotomy 1 x with h1 | h1 | h1
    · rw [if_pos h1, max_eq_right h1.le]
    · subst h1
      simp
    · rw [if_neg (not_lt.mpr h1.le), max_eq_left h1.le]
  · subst h
    have h1 : (1 : α) < 20 := by norm_num
    simp [h1, h1.le]
  · rw [if_neg (not_lt.mpr h.le), min_eq_left h.le, if_pos (by norm_num),
      max_eq_right (by norm_num)]

/-- One call of `zoom` leaves the distance `max(1, min(20, d + delta))`. -/
theorem zoom_distance_part2 (c : Camera α) (delta : α) :
    (c.zoom delta).cameraDistance = max 1 (min 20 (c.cameraDistance + delta)) := by
  simp only [Camera.zoom, stdMax_stdMin_eq_part2]

/-- After at least one call of `zoom` the distance is in `[1, 20]`. -/
theorem zoom_sequence_range_part2 (c : Camera α) (deltas : List α) (h : deltas ≠ []) :
    1 ≤ (deltas.foldl Camera.zoom c).cameraDistance ∧
      (deltas.foldl Camera.zoom c).cameraDistance ≤ 20 := by
  rcases List.eq_nil_or_concat deltas with hnil | ⟨front, d, rfl⟩
  · exact absurd hnil h
  · rw [List.concat_eq_append, List.foldl_append, List.foldl_cons, List.foldl_nil, zoom_distance_part2]
    exact ⟨le_max_left _ _, max_le (by norm_num) (min_le_left _ _)⟩

end CameraLemmas

end MainPart2

section CameraClaims

variable {α : Type} [LinearOrderedField α]

/-- C9: zoom is always clamped, in both demos.  After any sequence of at least
one `zoom(delta)` call, from any camera state and with arbitrary deltas, the
distance satisfies `1 ≤ cameraDistance ≤ 20`; and a single `zoom(delta)` from
distance `d` leaves `max(1, min(20, d + delta))`. -/
theorem zoom_always_clamped (c1 : Main3_1.Camera α) (c2 : MainPart2.Camera α)
    (deltas : List α) (h : deltas ≠ []) (delta : α) :
    (1 ≤ (deltas.foldl Main3_1.Camera.zoom c1).cameraDistance ∧
      (deltas.foldl Main3_1.Camera.zoom c1).cameraDistance ≤ 20) ∧
    (1 ≤ (deltas.foldl MainPart2.Camera.zoom c2).cameraDistance ∧
      (deltas.foldl MainPart2.Camera.zoom c2).cameraDistance ≤ 20) ∧
    (c1.zoom delta).cameraDistance = max 1 (min 20 (c1.cameraDistance + delta)) ∧
    (c2.zoom delta).cameraDistance = max 1 (min 20 (c2.cameraDistance + delta)) :=
  ⟨Main3_1.zoom_sequence_range c1 deltas h, MainPart2.zoom_sequence_range_part2 c2 deltas h,
    Main3_1.zoom_distance c1 delta, MainPart2.zoom_distance_part2 c2 delta⟩

/-- C9 at the initial cameras, zooming far out and then in by the key step. -/
theorem zoom_always_clamped_witness :
    ([100, -1 / 2] : List ℚ) ≠ [] ∧
    (1 ≤ (([100, -1 / 2] : List ℚ).foldl Main3_1.Camera.zoom
        Main3_1.Camera.init).cameraDistance ∧
      (([100, -1 / 2] : List ℚ).foldl Main3_1.Camera.zoom
        Main3_1.Camera.init).cameraDistance ≤ 20) ∧
    (1 ≤ (([100, -1 / 2] : List ℚ).foldl MainPart2.Camera.zoom
        MainPart2.Camera.init).cameraDistance ∧
      (([100, -1 / 2] : List ℚ).foldl MainPart2.Camera.zoom
        MainPart2.Camera.init).cameraDistance ≤ 20) :=
  ⟨by simp,
    (zoom_always_clamped Main3_1.Camera.init MainPart2.Camera.init ([100, -1 / 2] : List ℚ)
      (by simp) 0).1,
    (zoom_always_clamped Main3_1.Camera.init MainPart2.Camera.init ([100, -1 / 2] : List ℚ)
      (by simp) 0).2.1⟩

/-- C10: from every prior state `reset` leaves `cameraDistance = 8`,
`cameraAngleX = 45` and `cameraAngleY = 45`, the state the constructor builds;
`reset` is idempotent.  This holds in both demos. -/
theorem reset_restores_defaults (c1 : Main3_1.Camera α) (c2 : MainPart2.Camera α) :
    (c1.reset.cameraDistance = 8 ∧ c1.reset.cameraAngleX = 45 ∧ c1.reset.cameraAngleY = 45 ∧
      c1.reset = Main3_1.Camera.init ∧ c1.reset.reset = c1.reset) ∧
    (c2.reset.cameraDistance = 8 ∧ c2.reset.cameraAngleX = 45 ∧ c2.reset.cameraAngleY = 45 ∧
      c2.reset = MainPart2.Camera.init ∧ c2.reset.reset = c2.reset) :=
  ⟨⟨rfl, rfl, rfl, rfl, rfl⟩, ⟨rfl, rfl, rfl, rfl, rfl⟩⟩

end CameraClaims

/-! ## The flat-patch scenario -/

namespace Main3_1

section FlatPatch

/-- On the flat control grid the surface is the parametrisation
`(u, v) ↦ (v, 0, u)` of the plane `y = 0`. -/
theorem evaluatePoints_flat {α : Type} [LinearOrderedField α] (u v : α) :
    evaluatePoints (flatControlPoints : List (Point3D α)) u v = ⟨v, 0, u⟩ := by
  apply Point3D.eq_of_coords
  · rw [evaluatePoints_x]
    simp [Finset.sum_range_succ, bernstein_zero, bernstein_one, bernstein_two,
      bernstein_three, flatControlPoints]
    ring
  · rw [evaluatePoints_y]
    simp [Finset.sum_range_succ, flatControlPoints]
  · rw [evaluatePoints_z]
    simp [Finset.sum_range_succ, bernstein_zero, bernstein_one, bernstein_two,
      bernstein_three, flatControlPoints]
    ring

/-- On the flat control grid the normal is `(0, 1, 0)` at every parameter pair,
also where `u + 0.01` or `v + 0.01` exceeds 1. -/
theorem calculateNormalPoints_flat (u v : ℝ) :
    calculateNormalPoints Real.sqrt (flatControlPoints : List (Point3D ℝ)) u v = ⟨0, 1, 0⟩ := by
  have hs : Real.sqrt ((1 / 100 : ℝ) * (1 / 100) * ((1 / 100) * (1 / 100))) =
      (1 / 100) * (1 / 100) := Real.sqrt_mul_self (by norm_num)
  simp only [calculateNormalPoints, tangentU, tangentV, crossProduct, evaluatePoints_flat]
  have e : (u + 1 / 100 - u) * (v + 1 / 100 - v) = (1 / 100 : ℝ) * (1 / 100) := by ring
  simp only [sub_self, mul_zero, zero_mul, zero_sub, sub_zero, add_zero, zero_add, e, hs,
    neg_zero]
  rw [if_pos (by norm_num)]
  norm_num

/-- C11: flat-patch scenario.  With the control points `P[i][j] = (j/3, 0, i/3)`
and resolution 2, whatever the buffers held before, `tessellate` produces 9
vertices and 8 triangles (24 indices), every vertex has `y = 0`, and every one of
the 9 normals equals `(0,1,0)` or `(0,-1,0)` (in fact `(0,1,0)`); none is the
zero vector. -/
theorem flat_patch_scenario (vs ns : List (Point3D ℝ)) (ts : List ℝ) (is : List Int) :
    ((⟨flatControlPoints, vs, ns, ts, is, 2⟩ : BezierPatch ℝ).tessellate
        Real.sqrt).vertices.length = 9 ∧
    ((⟨flatControlPoints, vs, ns, ts, is, 2⟩ : BezierPatch ℝ).tessellate
        Real.sqrt).indices.length = 3 * 8 ∧
    (∀ vtx ∈ ((⟨flatControlPoints, vs, ns, ts, is, 2⟩ : BezierPatch ℝ).tessellate
        Real.sqrt).vertices, vtx.y = 0) ∧
    ((⟨flatControlPoints, vs, ns, ts, is, 2⟩ : BezierPatch ℝ).tessellate
        Real.sqrt).normals.length = 9 ∧
    (∀ nrm ∈ ((⟨flatControlPoints, vs, ns, ts, is, 2⟩ : BezierPatch ℝ).tessellate
        Real.sqrt).normals, nrm = ⟨0, 1, 0⟩ ∨ nrm = ⟨0, -1, 0⟩) ∧
    (∀ nrm ∈ ((⟨flatControlPoints, vs, ns, ts, is, 2⟩ : BezierPatch ℝ).tessellate
        Real.sqrt).normals, nrm = ⟨0, 1, 0⟩ ∧ nrm ≠ Point3D.zero) := by
  have h3 : ((2 : Int) + 1).toNat = 3 := rfl
  have h2 : (2 : Int).toNat = 2 := rfl
  have hnormal : ∀ nrm ∈ ((⟨flatControlPoints, vs, ns, ts, is, 2⟩ : BezierPatch ℝ).tessellate
      Real.sqrt).normals, nrm = ⟨0, 1, 0⟩ := by
    intro nrm hmem
    rw [tessellate_eq] at hmem
    simp only [List.mem_flatMap, List.mem_map] at hmem
    obtain ⟨i, -, j, -, rfl⟩ := hmem
    exact calculateNormalPoints_flat _ _
  refine ⟨?_, ?_, ?_, ?_, fun nrm h => Or.inl (hnormal nrm h), fun nrm h => ⟨hnormal nrm h, ?_⟩⟩
  · rw [tessellate_eq]
    simp only [h3, length_flatMap_map, List.length_range]
  · rw [tessellate_eq]
    simp only [h2]
    rw [length_flatMap_flatMap _ _ _ 6 (fun _ _ => by simp [cellIndices])]
    simp only [List.length_range]
  · intro vtx hmem
    rw [tessellate_eq] at hmem
    simp only [List.mem_flatMap, List.mem_map] at hmem
    obtain ⟨i, -, j, -, rfl⟩ := hmem
    rw [evaluatePoints_flat]
  · rw [tessellate_eq]
    simp only [h3, length_flatMap_map, List.length_range]
  · rw [hnormal nrm h]
    intro hz
    have := congrArg Point3D.y hz
    simp [Point3D.zero] at this

/-- C8 on the flat control grid at `(1/2, 1/2)`: the tangents are `(0, 0, 1/100)`
and `(1/100, 0, 0)`, their cross product is `(0, 1/10000, 0)`, and
`calculateNormal` returns `(0, 1, 0)`. -/
theorem calculateNormal_unit_or_zero_witness :
    ((⟨0, 0, 1 / 100⟩ : Point3D ℝ) =
        ⟨((⟨flatControlPoints, [], [], [], [], 2⟩ : BezierPatch ℝ).evaluate
              (1 / 2 + 1 / 100) (1 / 2)).x -
            ((⟨flatControlPoints, [], [], [], [], 2⟩ : BezierPatch ℝ).evaluate (1 / 2) (1 / 2)).x,
          ((⟨flatControlPoints, [], [], [], [], 2⟩ : BezierPatch ℝ).evaluate
              (1 / 2 + 1 / 100) (1 / 2)).y -
            ((⟨flatControlPoints, [], [], [], [], 2⟩ : BezierPatch ℝ).evaluate (1 / 2) (1 / 2)).y,
          ((⟨flatControlPoints, [], [], [], [], 2⟩ : BezierPatch ℝ).evaluate
              (1 / 2 + 1 / 100) (1 / 2)).z -
            ((⟨flatControlPoints, [], [], [], [], 2⟩ : BezierPatch ℝ).evaluate (1 / 2) (1 / 2)).z⟩ ∧
      (⟨1 / 100, 0, 0⟩ : Point3D ℝ) =
        ⟨((⟨flatControlPoints, [], [], [], [], 2⟩ : BezierPatch ℝ).evaluate
              (1 / 2) (1 / 2 + 1 / 100)).x -
            ((⟨flatControlPoints, [], [], [], [], 2⟩ : BezierPatch ℝ).evaluate (1 / 2) (1 / 2)).x,
          ((⟨flatControlPoints, [], [], [], [], 2⟩ : BezierPatch ℝ).evaluate
              (1 / 2) (1 / 2 + 1 / 100)).y -
            ((⟨flatControlPoints, [], [], [], [], 2⟩ : BezierPatch ℝ).evaluate (1 / 2) (1 / 2)).y,
          ((⟨flatControlPoints, [], [], [], [], 2⟩ : BezierPatch ℝ).evaluate
              (1 / 2) (1 / 2 + 1 / 100)).z -
            ((⟨flatControlPoints, [], [], [], [], 2⟩ : BezierPatch ℝ).evaluate (1 / 2) (1 / 2)).z⟩ ∧
      (⟨0, 1 / 10000, 0⟩ : Point3D ℝ) =
        ⟨(0 : ℝ) * 0 - 1 / 100 * 0, 1 / 100 * (1 / 100) - 0 * 0, 0 * 0 - 0 * (1 / 100)⟩) ∧
    (⟨flatControlPoints, [], [], [], [], 2⟩ : BezierPatch ℝ).calculateNormal Real.sqrt
      (1 / 2) (1 / 2) = ⟨0, 1, 0⟩ := by
  have hTu : (⟨0, 0, 1 / 100⟩ : Point3D ℝ) =
      ⟨((⟨flatControlPoints, [], [], [], [], 2⟩ : BezierPatch ℝ).evaluate
            (1 / 2 + 1 / 100) (1 / 2)).x -
          ((⟨flatControlPoints, [], [], [], [], 2⟩ : BezierPatch ℝ).evaluate (1 / 2) (1 / 2)).x,
        ((⟨flatControlPoints, [], [], [], [], 2⟩ : BezierPatch ℝ).evaluate
            (1 / 2 + 1 / 100) (1 / 2)).y -
          ((⟨flatControlPoints, [], [], [], [], 2⟩ : BezierPatch ℝ).evaluate (1 / 2) (1 / 2)).y,
        ((⟨flatControlPoints, [], [], [], [], 2⟩ : BezierPatch ℝ).evaluate
            (1 / 2 + 1 / 100) (1 / 2)).z -
          ((⟨flatControlPoints, [], [], [], [], 2⟩ : BezierPatch ℝ).evaluate (1 / 2) (1 / 2)).z⟩ := by
    simp only [BezierPatch.evaluate, evaluatePoints_flat]
    norm_num
  have hTv : (⟨1 / 100, 0, 0⟩ : Point3D ℝ) =
      ⟨((⟨flatControlPoints, [], [], [], [], 2⟩ : BezierPatch ℝ).evaluate
            (1 / 2) (1 / 2 + 1 / 100)).x -
          ((⟨flatControlPoints, [], [], [], [], 2⟩ : BezierPatch ℝ).evaluate (1 / 2) (1 / 2)).x,
        ((⟨flatControlPoints, [], [], [], [], 2⟩ : BezierPatch ℝ).evaluate
            (1 / 2) (1 / 2 + 1 / 100)).y -
          ((⟨flatControlPoints, [], [], [], [], 2⟩ : BezierPatch ℝ).evaluate (1 / 2) (1 / 2)).y,
        ((⟨flatControlPoints, [], [], [], [], 2⟩ : BezierPatch ℝ).evaluate
            (1 / 2) (1 / 2 + 1 / 100)).z -
          ((⟨flatControlPoints, [], [], [], [], 2⟩ : BezierPatch ℝ).evaluate (1 / 2) (1 / 2)).z⟩ := by
    simp only [BezierPatch.evaluate, evaluatePoints_flat]
    norm_num
  have hN : (⟨0, 1 / 10000, 0⟩ : Point3D ℝ) =
      ⟨(0 : ℝ) * 0 - 1 / 100 * 0, 1 / 100 * (1 / 100) - 0 * 0, 0 * 0 - 0 * (1 / 100)⟩ := by
    norm_num
  have h := calculateNormal_unit_or_zero
    (⟨flatControlPoints, [], [], [], [], 2⟩ : BezierPatch ℝ) (1 / 2) (1 / 2)
    ⟨0, 0, 1 / 100⟩ ⟨1 / 100, 0, 0⟩ ⟨0, 1 / 10000, 0⟩ hTu hTv hN
  refine ⟨⟨hTu, hTv, hN⟩, ?_⟩
  have hs : Real.sqrt ((1 / 10000 : ℝ) * (1 / 10000)) = 1 / 10000 :=
    Real.sqrt_mul_self (by norm_num)
  rcases h.1 with ⟨-, hr, -⟩ | ⟨h0, -⟩
  · rw [hr]
    simp only [mul_zero, zero_add, add_zero, hs, zero_div]
    norm_num
  · exfalso
    have hy := congrArg Point3D.y h0
    norm_num at hy

end FlatPatch

end Main3_1

/-! ## The three-object scenario -/

namespace MainPart2

section ThreeObjects

variable {α : Type} [LinearOrderedField α]

/-- In picking mode the only colour call of `render` is the one with the picking
colour of the object. -/
theorem render_color_unique (m : MeshObject α) (px : Pixel) :
    GLCmd.glColor3ub px.r px.g px.b ∈ m.render true ↔ px = pickingPixel m.objectId := by
  cases px with
  | mk r g b =>
    simp [MeshObject.render, MeshObject.drawStep, pickingPixel, List.mem_flatMap]

/-- The identity of an object built by the constructor is the one passed to it. -/
theorem create_objectId (pos : Vertex α) (color : Color α) (id : Int) (scale : α) :
    (MeshObject.create pos color id scale).objectId = id := rfl

/-- The pixels that the three identities of the scene are drawn with decode to
these identities. -/
theorem decode_scene_pixels :
    decodeId (pickingPixel 0xFF0000) = 0xFF0000 ∧ decodeId (pickingPixel 0x00FF00) = 0x00FF00 ∧
      decodeId (pickingPixel 0x0000FF) = 0x0000FF ∧ decodeId ⟨0, 0, 0⟩ = 0 := by
  decide

/-- The picking pixels of the three identities of the scene. -/
theorem scene_pixels :
    pickingPixel 0xFF0000 = ⟨255, 0, 0⟩ ∧ pickingPixel 0x00FF00 = ⟨0, 255, 0⟩ ∧
      pickingPixel 0x0000FF = ⟨0, 0, 255⟩ := by
  decide

/-- In picking mode `render` issues exactly one colour, the given bytes, when
these are the picking pixel of the object, and switches lighting off. -/
theorem render_flat_color (m : MeshObject α) (r g b : Fin 256)
    (h : pickingPixel m.objectId = ⟨r, g, b⟩) :
    GLCmd.glColor3ub r g b ∈ m.render true ∧
      (∀ r' g' b' : Fin 256, GLCmd.glColor3ub r' g' b' ∈ m.render true →
        r' = r ∧ g' = g ∧ b' = b) ∧
      GLCmd.glDisable GLCap.GL_LIGHTING ∈ m.render true := by
  refine ⟨?_, ?_, ?_⟩
  · exact (render_color_unique m ⟨r, g, b⟩).mpr h.symm
  · intro r' g' b' hmem
    have := (render_color_unique m ⟨r', g', b'⟩).mp hmem
    rw [h] at this
    exact ⟨congrArg Pixel.r this, congrArg Pixel.g this, congrArg Pixel.b this⟩
  · simp [MeshObject.render]

/-- C12: three-object scenario.  The objects built by `initializeObjects` have, at
indices 0, 1, 2, the pairwise distinct non-zero 24-bit identities `0xFF0000`,
`0x00FF00`, `0x0000FF`; `render(true)` draws them, with lighting off, in the one
flat colour `(255,0,0)`, `(0,255,0)`, `(0,0,255)` respectively; when the pixel
read back is the colour that `render(true)` emits for the object at index `i`,
`pickObject` returns `i`; when it is the background `(0,0,0)`, `pickObject`
returns `-1`. -/
theorem three_object_scenario (ps : PickingSystem) (glReadPixels : Int → Int → Pixel)
    (mouseX mouseY : Int) :
    (initializeObjects : List (MeshObject α)).map MeshObject.getObjectId =
      [0xFF0000, 0x00FF00, 0x0000FF] ∧
    ((0xFF0000 : Int) ≠ 0x00FF00 ∧ (0xFF0000 : Int) ≠ 0x0000FF ∧ (0x00FF00 : Int) ≠ 0x0000FF ∧
      (0 : Int) < 0x0000FF ∧ (0 : Int) < 0x00FF00 ∧ (0 : Int) < 0xFF0000 ∧
      (0xFF0000 : Int) ≤ 0xFFFFFF) ∧
    (∃ o0 o1 o2 : MeshObject α, (initializeObjects : List (MeshObject α)) = [o0, o1, o2] ∧
      (GLCmd.glColor3ub 255 0 0 ∈ o0.render true ∧
        (∀ r g b : Fin 256, GLCmd.glColor3ub r g b ∈ o0.render true →
          r = 255 ∧ g = 0 ∧ b = 0) ∧
        GLCmd.glDisable GLCap.GL_LIGHTING ∈ o0.render true) ∧
      (GLCmd.glColor3ub 0 255 0 ∈ o1.render true ∧
        (∀ r g b : Fin 256, GLCmd.glColor3ub r g b ∈ o1.render true →
          r = 0 ∧ g = 255 ∧ b = 0) ∧
        GLCmd.glDisable GLCap.GL_LIGHTING ∈ o1.render true) ∧
      (GLCmd.glColor3ub 0 0 255 ∈ o2.render true ∧
        (∀ r g b : Fin 256, GLCmd.glColor3ub r g b ∈ o2.render true →
          r = 0 ∧ g = 0 ∧ b = 255) ∧
        GLCmd.glDisable GLCap.GL_LIGHTING ∈ o2.render true)) ∧
    (glReadPixels mouseX (ps.windowHeight - mouseY - 1) = ⟨255, 0, 0⟩ →
      ps.pickObject glReadPixels mouseX mouseY (initializeObjects : List (MeshObject α)) = 0) ∧
    (glReadPixels mouseX (ps.windowHeight - mouseY - 1) = ⟨0, 255, 0⟩ →
      ps.pickObject glReadPixels mouseX mouseY (initializeObjects : List (MeshObject α)) = 1) ∧
    (glReadPixels mouseX (ps.windowHeight - mouseY - 1) = ⟨0, 0, 255⟩ →
      ps.pickObject glReadPixels mouseX mouseY (initializeObjects : List (MeshObject α)) = 2) ∧
    (∀ (i : Nat) (obj : MeshObject α) (px : Pixel),
      (initializeObjects : List (MeshObject α))[i]? = some obj →
      GLCmd.glColor3ub px.r px.g px.b ∈ obj.render true →
      glReadPixels mouseX (ps.windowHeight - mouseY - 1) = px →
      ps.pickObject glReadPixels mouseX mouseY (initializeObjects : List (MeshObject α))
        = (i : Int)) ∧
    (glReadPixels mouseX (ps.windowHeight - mouseY - 1) = ⟨0, 0, 0⟩ →
      ps.pickObject glReadPixels mouseX mouseY (initializeObjects : List (MeshObject α))
        = -1) := by
  obtain ⟨d0, d1, d2, dbg⟩ := decode_scene_pixels
  obtain ⟨p0, p1, p2⟩ := scene_pixels
  have hconditional : ∀ (i : Nat) (obj : MeshObject α) (px : Pixel),
      (initializeObjects : List (MeshObject α))[i]? = some obj →
      GLCmd.glColor3ub px.r px.g px.b ∈ obj.render true →
      glReadPixels mouseX (ps.windowHeight - mouseY - 1) = px →
      ps.pickObject glReadPixels mouseX mouseY (initializeObjects : List (MeshObject α))
        = (i : Int) := by
    intro i obj px hget hcol hread
    rw [render_color_unique] at hcol
    simp only [PickingSystem.pickObject, hread, hcol]
    rcases i with _ | _ | _ | i
    · simp only [initializeObjects, List.getElem?_cons_zero, Option.some.injEq] at hget
      subst hget
      rw [create_objectId, d0]
      simp [pickSearch, MeshObject.getObjectId, create_objectId]
    · simp only [initializeObjects, List.getElem?_cons_succ, List.getElem?_cons_zero,
        Option.some.injEq] at hget
      subst hget
      rw [create_objectId, d1]
      simp [pickSearch, MeshObject.getObjectId, create_objectId]
    · simp only [initializeObjects, List.getElem?_cons_succ, List.getElem?_cons_zero,
        Option.some.injEq] at hget
      subst hget
      rw [create_objectId, d2]
      simp [pickSearch, MeshObject.getObjectId, create_objectId]
    · simp [initializeObjects] at hget
  have e0 := render_flat_color
    (MeshObject.create (⟨-2, 0, 0⟩ : Vertex α) ⟨1, 0, 0⟩ 0xFF0000 (8 / 10)) 255 0 0 p0
  have e1 := render_flat_color
    (MeshObject.create (⟨0, 0, 0⟩ : Vertex α) ⟨0, 1, 0⟩ 0x00FF00 (8 / 10)) 0 255 0 p1
  have e2 := render_flat_color
    (MeshObject.create (⟨2, 0, 0⟩ : Vertex α) ⟨0, 0, 1⟩ 0x0000FF (8 / 10)) 0 0 255 p2
  refine ⟨rfl, by decide, ⟨_, _, _, rfl, e0, e1, e2⟩, ?_, ?_, ?_, hconditional, ?_⟩
  · intro hread
    exact hconditional 0 _ ⟨255, 0, 0⟩ rfl e0.1 hread
  · intro hread
    exact hconditional 1 _ ⟨0, 255, 0⟩ rfl e1.1 hread
  · intro hread
    exact hconditional 2 _ ⟨0, 0, 255⟩ rfl e2.1 hread
  · intro hbg
    simp only [PickingSystem.pickObject, hbg, dbg]
    exact pickSearch_none _ _ _ (Or.inl rfl)

/-- C12 on the initial picking surface: pixels `(255,0,0)`, `(0,255,0)`,
`(0,0,255)` select the indices 0, 1, 2 and the background selects nothing. -/
theorem three_object_scenario_witness :
    PickingSystem.init.pickObject (fun _ _ => (⟨255, 0, 0⟩ : Pixel)) 100 300
      (initializeObjects : List (MeshObject ℚ)) = 0 ∧
    PickingSystem.init.pickObject (fun _ _ => (⟨0, 255, 0⟩ : Pixel)) 400 300
      (initializeObjects : List (MeshObject ℚ)) = 1 ∧
    PickingSystem.init.pickObject (fun _ _ => (⟨0, 0, 255⟩ : Pixel)) 700 300
      (initializeObjects : List (MeshObject ℚ)) = 2 ∧
    PickingSystem.init.pickObject (fun _ _ => (⟨0, 0, 0⟩ : Pixel)) 10 10
      (initializeObjects : List (MeshObject ℚ)) = -1 :=
  ⟨(three_object_scenario PickingSystem.init (fun _ _ => (⟨255, 0, 0⟩ : Pixel))
      100 300).2.2.2.1 rfl,
    (three_object_scenario PickingSystem.init (fun _ _ => (⟨0, 255, 0⟩ : Pixel))
      400 300).2.2.2.2.1 rfl,
    (three_object_scenario PickingSystem.init (fun _ _ => (⟨0, 0, 255⟩ : Pixel))
      700 300).2.2.2.2.2.1 rfl,
    (three_object_scenario PickingSystem.init (fun _ _ => (⟨0, 0, 0⟩ : Pixel))
      10 10).2.2.2.2.2.2.2 rfl⟩

end ThreeObjects

end MainPart2

/-! ## The view of the picking pass and a failed initialisation -/

namespace MainPart2

section PickingView

/-- The angle `45 * 3.14159 / 180` of both set-ups has a positive cosine. -/
theorem cos_default_angle_pos : 0 < Real.cos (45 * (314159 / 100000) / 180) := by
  apply Real.cos_pos_of_mem_Ioo
  have hpi := Real.pi_gt_three
  constructor <;> norm_num <;> linarith

/-- At the camera state of the constructor and the window size 800 × 600 of the
constructor, the picking pass sets the view of the visible pass. -/
theorem pickingView_eq_at_defaults {α : Type} [LinearOrderedField α] (cosf sinf : α → α) :
    (Camera.init : Camera α).apply cosf sinf =
      PickingSystem.init.setupPickingView cosf sinf := by
  simp [Camera.apply, Camera.init, PickingSystem.setupPickingView, PickingSystem.init]

/-- C13 (the code at the failing inputs): after one `zoom(0.5)` from the initial
camera the eye of the visible pass is at height `8.5 · cos θ` while the eye of the
picking pass stays at `8 · cos θ`; and after a resize to 1000 × 600 the picking
pass uses the aspect ratio `1000/600` while the visible pass keeps `800/600`. -/
theorem pickingView_differs :
    (((Camera.init : Camera ℝ).zoom (1 / 2)).apply Real.cos Real.sin).eyeY ≠
        (PickingSystem.init.setupPickingView Real.cos Real.sin : ViewSetup ℝ).eyeY ∧
      ((Camera.init : Camera ℝ).apply Real.cos Real.sin).aspect ≠
        ((PickingSystem.init.setWindowSize 1000 600 1 1 1 true).setupPickingView
          Real.cos Real.sin : ViewSetup ℝ).aspect := by
  constructor
  · have hc := cos_default_angle_pos
    have hd : ((Camera.init : Camera ℝ).zoom (1 / 2)).cameraDistance = 17 / 2 := by
      rw [zoom_distance_part2]
      simp only [Camera.init]
      norm_num
    simp only [Camera.apply, PickingSystem.setupPickingView, hd]
    have ha : ((Camera.init : Camera ℝ).zoom (1 / 2)).cameraAngleX = 45 := rfl
    rw [ha]
    intro h
    linarith
  · simp [Camera.apply, PickingSystem.setupPickingView, PickingSystem.setWindowSize,
      PickingSystem.initialize, PickingSystem.cleanup, PickingSystem.init]
    norm_num

/-- C14 (the code at the failing input): `initialize` reports failure, and a
later `pickObject` on the scene of the program whose read-back delivers the bytes
`(0, 255, 0)` returns index 1, not `-1`. -/
theorem failed_initialize_still_picks :
    ( PickingSystem.initialize PickingSystem.init 1 1 1 false).1 = false ∧
      PickingSystem.pickObject ( PickingSystem.initialize PickingSystem.init 1 1 1 false).2
        (fun _ _ => (⟨0, 255, 0⟩ : Pixel)) 400 300
        (initializeObjects : List (MeshObject ℚ)) = 1 := by
  decide

end PickingView

end MainPart2

/-! ## The mesh invariant, the frame of the camera operations and the binomial loop -/

namespace Main3_1

section MeshInvariant

variable {α : Type} [LinearOrderedField α]

/-- The lengths of the three sample buffers after `tessellate`, with
`m = resolution + 1` samples per axis. -/
theorem tessellate_buffer_lengths (sqrtf : α → α) (p : BezierPatch α) :
    (p.tessellate sqrtf).vertices.length =
        (p.resolution + 1).toNat * (p.resolution + 1).toNat ∧
      (p.tessellate sqrtf).normals.length =
        (p.resolution + 1).toNat * (p.resolution + 1).toNat ∧
      (p.tessellate sqrtf).texCoords.length =
        (p.resolution + 1).toNat * ((p.resolution + 1).toNat * 2) := by
  rw [tessellate_eq]
  refine ⟨?_, ?_, ?_⟩
  · simp only [length_flatMap_map, List.length_range]
  · simp only [length_flatMap_map, List.length_range]
  · simp only []
    rw [length_flatMap_flatMap _ _ _ 2 (fun _ _ => by simp)]
    simp only [List.length_range]

/-- The result of `tessellate` depends on `controlPoints` and `resolution` only,
not on what the four buffers held before. -/
theorem tessellate_congr (sqrtf : α → α) (p q : BezierPatch α)
    (hc : p.controlPoints = q.controlPoints) (hr : p.resolution = q.resolution) :
    p.tessellate sqrtf = q.tessellate sqrtf := by
  rw [tessellate_eq, tessellate_eq, hc, hr]

/-- The method `tessellate` leaves `controlPoints` and `resolution` as they were. -/
theorem tessellate_frame (sqrtf : α → α) (p : BezierPatch α) :
    (p.tessellate sqrtf).controlPoints = p.controlPoints ∧
      (p.tessellate sqrtf).resolution = p.resolution := by
  rw [tessellate_eq]
  exact ⟨rfl, rfl⟩

/-- C15: mesh invariant.  After `tessellate`, from any prior buffer contents and
for any resolution `n ≥ 1`, `vertices.size() == normals.size()`,
`texCoords.size() == 2 * vertices.size()` and every entry of `indices` is a
non-negative number below `vertices.size()`; the result does not depend on the
prior buffers, and calling `tessellate` twice leaves what one call leaves. -/
theorem tessellate_invariant (sqrtf : α → α) (p : BezierPatch α) (hn : 1 ≤ p.resolution) :
    (p.tessellate sqrtf).vertices.length = (p.tessellate sqrtf).normals.length ∧
    (p.tessellate sqrtf).texCoords.length = 2 * (p.tessellate sqrtf).vertices.length ∧
    (∀ k ∈ (p.tessellate sqrtf).indices,
      0 ≤ k ∧ k < ((p.tessellate sqrtf).vertices.length : Int)) ∧
    (∀ (vs ns : List (Point3D α)) (ts : List α) (is : List Int),
      BezierPatch.tessellate sqrtf
          { p with vertices := vs, normals := ns, texCoords := ts, indices := is } =
        p.tessellate sqrtf) ∧
    (p.tessellate sqrtf).tessellate sqrtf = p.tessellate sqrtf := by
  obtain ⟨hv, hnm, ht⟩ := tessellate_buffer_lengths sqrtf p
  obtain ⟨hfc, hfr⟩ := tessellate_frame sqrtf p
  refine ⟨by rw [hv, hnm], by rw [hv, ht]; ring, ?_,
    fun vs ns ts is => tessellate_congr sqrtf _ _ rfl rfl,
    tessellate_congr sqrtf _ _ hfc hfr⟩
  intro k hk
  rw [hv]
  rw [tessellate_eq] at hk
  simp only [List.mem_flatMap, List.mem_range] at hk
  obtain ⟨i, hi, j, hj, hkc⟩ := hk
  have hr := cellIndices_range p.resolution i j (by omega) (by omega) k hkc
  refine ⟨hr.1, lt_of_lt_of_eq hr.2 ?_⟩
  have hm : (((p.resolution + 1).toNat : Nat) : Int) = p.resolution + 1 :=
    Int.toNat_of_nonneg (by omega)
  push_cast
  rw [hm]
  ring

/-- C15 at the patch of the program, starting from buffers that are not empty. -/
theorem tessellate_invariant_witness :
    (1 : Int) ≤ 12 ∧
    ((⟨initialControlPoints, [⟨1, 2, 3⟩], [], [7], [5, 5], 12⟩ : BezierPatch ℝ).tessellate
        Real.sqrt).tessellate Real.sqrt =
      (⟨initialControlPoints, [⟨1, 2, 3⟩], [], [7], [5, 5], 12⟩ : BezierPatch ℝ).tessellate
        Real.sqrt :=
  ⟨by decide,
    (tessellate_invariant Real.sqrt
      (⟨initialControlPoints, [⟨1, 2, 3⟩], [], [7], [5, 5], 12⟩ : BezierPatch ℝ)
      (by decide)).2.2.2.2⟩

end MeshInvariant

end Main3_1

section CameraFrame

variable {α : Type} [LinearOrderedField α]

/-- C16: in both demos `rotate(dx, dy)` adds `dy` to `cameraAngleX` and `dx` to
`cameraAngleY`, with no clamping or wrapping, and leaves `cameraDistance`
unchanged; `zoom(delta)` leaves both angles unchanged. -/
theorem rotate_zoom_frame (c1 : Main3_1.Camera α) (c2 : MainPart2.Camera α)
    (dx dy delta : α) :
    ((c1.rotate dx dy).cameraAngleX = c1.cameraAngleX + dy ∧
      (c1.rotate dx dy).cameraAngleY = c1.cameraAngleY + dx ∧
      (c1.rotate dx dy).cameraDistance = c1.cameraDistance ∧
      (c1.zoom delta).cameraAngleX = c1.cameraAngleX ∧
      (c1.zoom delta).cameraAngleY = c1.cameraAngleY) ∧
    ((c2.rotate dx dy).cameraAngleX = c2.cameraAngleX + dy ∧
      (c2.rotate dx dy).cameraAngleY = c2.cameraAngleY + dx ∧
      (c2.rotate dx dy).cameraDistance = c2.cameraDistance ∧
      (c2.zoom delta).cameraAngleX = c2.cameraAngleX ∧
      (c2.zoom delta).cameraAngleY = c2.cameraAngleY) :=
  ⟨⟨rfl, rfl, rfl, rfl, rfl⟩, ⟨rfl, rfl, rfl, rfl, rfl⟩⟩

end CameraFrame

namespace Main3_1

section Binomial

variable {α : Type} [LinearOrderedField α]

/-- The loop of `bernstein` run for `j = 1, …, i` leaves the binomial
coefficient `C(n, i)` in `binomial`. -/
theorem binomial_loop (n i : Nat) (h : i ≤ n) :
    (List.range' 1 i).foldl (bernsteinStep (n : Int)) (1 : α) = (Nat.choose n i : α) := by
  induction i with
  | zero => simp
  | succ k ih =>
    have hk : k ≤ n := Nat.le_of_succ_le h
    rw [List.range'_1_concat, List.foldl_append, List.foldl_cons, List.foldl_nil, ih hk,
      bernsteinStep]
    have hne : ((k : α) + 1) ≠ 0 := by positivity
    have hchoose : (Nat.choose n (k + 1) : α) * ((k : α) + 1) =
        (Nat.choose n k : α) * ((n : α) - (k : α)) := by
      have := Nat.choose_succ_right_eq n k
      have hc := congrArg (Nat.cast : Nat → α) this
      push_cast [Nat.cast_sub hk] at hc
      exact hc
    push_cast
    field_simp
    linear_combination -hchoose

/-- C17: for every degree `n ≥ 0` and index `0 ≤ i ≤ n`, in exact arithmetic, the
iterative product of `(n - j + 1)/j` for `j = 1..i` computed by `bernstein` equals
the binomial coefficient `C(n,i)`, so
`bernstein(i,n,t) = C(n,i) · t^i · (1-t)^(n-i)`; for `n = 3` the loop leaves the
coefficients 1, 3, 3, 1. -/
theorem bernstein_binomial (n i : Nat) (h : i ≤ n) (t : α) :
    (List.range' 1 ((i : Int)).toNat).foldl (bernsteinStep (n : Int)) (1 : α) =
        (Nat.choose n i : α) ∧
      bernstein (i : Int) (n : Int) t = (Nat.choose n i : α) * t ^ i * (1 - t) ^ (n - i) ∧
      ((List.range' 1 ((0 : Int)).toNat).foldl (bernsteinStep 3) (1 : α) = 1 ∧
        (List.range' 1 ((1 : Int)).toNat).foldl (bernsteinStep 3) (1 : α) = 3 ∧
        (List.range' 1 ((2 : Int)).toNat).foldl (bernsteinStep 3) (1 : α) = 3 ∧
        (List.range' 1 ((3 : Int)).toNat).foldl (bernsteinStep 3) (1 : α) = 1) := by
  have hloop := binomial_loop (α := α) n i h
  refine ⟨?_, ?_, ?_⟩
  · rw [Int.toNat_natCast]
    exact hloop
  · have hexp : ((n : Int) - (i : Int)) = ((n - i : Nat) : Int) := (Nat.cast_sub h).symm
    simp only [bernstein, Int.toNat_natCast, hloop, hexp, zpow_natCast]
  · have h0 := binomial_loop (α := α) 3 0 (by decide)
    have h1 := binomial_loop (α := α) 3 1 (by decide)
    have h2 := binomial_loop (α := α) 3 2 (by decide)
    have h3 := binomial_loop (α := α) 3 3 (by decide)
    have c0 : Nat.choose 3 0 = 1 := by decide
    have c1 : Nat.choose 3 1 = 3 := by decide
    have c2 : Nat.choose 3 2 = 3 := by decide
    have c3 : Nat.choose 3 3 = 1 := by decide
    rw [c0] at h0
    rw [c1] at h1
    rw [c2] at h2
    rw [c3] at h3
    refine ⟨?_, ?_, ?_, ?_⟩
    · simp
    · simpa using h1
    · simpa using h2
    · simpa using h3

/-- C17 at degree 5, index 2 and `t = 1/2`: the loop leaves `C(5,2) = 10`. -/
theorem bernstein_binomial_witness :
    2 ≤ 5 ∧
      (List.range' 1 (((2 : Nat) : Int)).toNat).foldl (bernsteinStep ((5 : Nat) : Int)) (1 : ℚ) =
        (Nat.choose 5 2 : ℚ) ∧
      bernstein (((2 : Nat) : Int)) (((5 : Nat) : Int)) (1 / 2 : ℚ) =
        (Nat.choose 5 2 : ℚ) * (1 / 2) ^ 2 * (1 - 1 / 2) ^ (5 - 2) :=
  ⟨by decide, (bernstein_binomial 5 2 (by decide) (1 / 2 : ℚ)).1,
    (bernstein_binomial 5 2 (by decide) (1 / 2 : ℚ)).2.1⟩

end Binomial

end Main3_1

/-! ## The order of the samples and of the triangles -/

namespace Main3_1

section BufferOrder

variable {α : Type} [LinearOrderedField α]

/-- A loop that appends a block of `c` entries for every element of `l` puts
entry `k` of the block of the `a`-th element at position `c * a + k`. -/
theorem flatMap_getElem_opt {β γ : Type} (f : β → List γ) (c : Nat)
    (hc : ∀ b, (f b).length = c) (l : List β) (a k : Nat) (b : β)
    (ha : l[a]? = some b) (hk : k < c) :
    (l.flatMap f)[c * a + k]? = (f b)[k]? := by
  induction l generalizing a with
  | nil => simp at ha
  | cons x t ih =>
    rw [List.flatMap_cons]
    cases a with
    | zero =>
      simp only [List.getElem?_cons_zero, Option.some.injEq] at ha
      subst ha
      rw [Nat.mul_zero, Nat.zero_add]
      exact List.getElem?_append_left (by rw [hc]; exact hk)
    | succ a' =>
      simp only [List.getElem?_cons_succ] at ha
      have hlen : (f x).length ≤ c * (a' + 1) + k := by
        rw [hc, Nat.mul_succ]
        omega
      rw [List.getElem?_append_right hlen]
      have hidx : c * (a' + 1) + k - (f x).length = c * a' + k := by
        rw [hc, Nat.mul_succ]
        omega
      rw [hidx]
      exact ih a' ha

/-- Entry `k` of the block of six indices of cell `(i, j)` sits at position
`6 * (i * n + j) + k` of `indices`. -/
theorem tessellate_indices_getElem (sqrtf : α → α) (p : BezierPatch α) (n : Nat)
    (hres : p.resolution = (n : Int)) (i j k : Nat) (hi : i < n) (hj : j < n) (hk : k < 6) :
    (p.tessellate sqrtf).indices[6 * (i * n + j) + k]? = (cellIndices (n : Int) i j)[k]? := by
  rw [tessellate_eq]
  simp only [hres, Int.toNat_natCast]
  have hpos : 6 * (i * n + j) + k = n * 6 * i + (6 * j + k) := by ring
  rw [hpos]
  rw [flatMap_getElem_opt
    (fun (i : Nat) => (List.range n).flatMap (cellIndices (n : Int) i)) (n * 6)
    (fun b => by
      rw [flatMap_length_const _ _ 6 (fun _ => by simp [cellIndices])]
      simp)
    (List.range n) i (6 * j + k) i (List.getElem?_range hi) (by omega)]
  exact flatMap_getElem_opt (cellIndices (n : Int) i) 6 (fun _ => by simp [cellIndices])
    (List.range n) j k j (List.getElem?_range hj) hk

/-- The sample of the grid walk at `(i, j)` sits at position `i·(n+1) + j` of
`vertices` and of `normals`, and its parameters at positions `2k`, `2k + 1` of
`texCoords`. -/
theorem tessellate_samples_getElem (sqrtf : α → α) (p : BezierPatch α) (n : Nat)
    (hres : p.resolution = (n : Int)) (i j : Nat) (hi : i ≤ n) (hj : j ≤ n) :
    (p.tessellate sqrtf).vertices[i * (n + 1) + j]? =
        some (evaluatePoints p.controlPoints ((i : α) / (n : α)) ((j : α) / (n : α))) ∧
      (p.tessellate sqrtf).normals[i * (n + 1) + j]? =
        some (calculateNormalPoints sqrtf p.controlPoints ((i : α) / (n : α))
          ((j : α) / (n : α))) ∧
      (p.tessellate sqrtf).texCoords[2 * (i * (n + 1) + j)]? = some ((i : α) / (n : α)) ∧
      (p.tessellate sqrtf).texCoords[2 * (i * (n + 1) + j) + 1]? = some ((j : α) / (n : α)) := by
  have hm : ((n : Int) + 1).toNat = n + 1 := by omega
  have hi' : i < n + 1 := Nat.lt_succ_of_le hi
  have hj' : j < n + 1 := Nat.lt_succ_of_le hj
  have hpos : i * (n + 1) + j = (n + 1) * i + j := by ring
  have hpos0 : 2 * (i * (n + 1) + j) = (n + 1) * 2 * i + (2 * j + 0) := by ring
  have hpos1 : 2 * (i * (n + 1) + j) + 1 = (n + 1) * 2 * i + (2 * j + 1) := by ring
  have hcast : ((n : Int) : α) = (n : α) := Int.cast_natCast n
  rw [tessellate_eq]
  simp only [hres, hm, hcast]
  refine ⟨?_, ?_, ?_, ?_⟩
  · rw [hpos, flatMap_getElem_opt
      (fun (i : Nat) => (List.range (n + 1)).map (fun (j : Nat) =>
        evaluatePoints p.controlPoints ((i : α) / (n : α)) ((j : α) / (n : α)))) (n + 1)
      (fun _ => by simp) (List.range (n + 1)) i j i (List.getElem?_range hi') hj']
    simp [List.getElem?_range hj']
  · rw [hpos, flatMap_getElem_opt
      (fun (i : Nat) => (List.range (n + 1)).map (fun (j : Nat) =>
        calculateNormalPoints sqrtf p.controlPoints ((i : α) / (n : α)) ((j : α) / (n : α))))
      (n + 1) (fun _ => by simp) (List.range (n + 1)) i j i (List.getElem?_range hi') hj']
    simp [List.getElem?_range hj']
  · rw [hpos0, flatMap_getElem_opt
      (fun (i : Nat) => (List.range (n + 1)).flatMap (fun (j : Nat) =>
        [(i : α) / (n : α), (j : α) / (n : α)])) ((n + 1) * 2)
      (fun _ => by
        rw [flatMap_length_const _ _ 2 (fun _ => by simp)]
        simp)
      (List.range (n + 1)) i (2 * j + 0) i (List.getElem?_range hi') (by omega)]
    rw [flatMap_getElem_opt (fun (j : Nat) => [(i : α) / (n : α), (j : α) / (n : α)]) 2
      (fun _ => by simp) (List.range (n + 1)) j 0 j (List.getElem?_range hj') (by decide)]
    rfl
  · rw [hpos1, flatMap_getElem_opt
      (fun (i : Nat) => (List.range (n + 1)).flatMap (fun (j : Nat) =>
        [(i : α) / (n : α), (j : α) / (n : α)])) ((n + 1) * 2)
      (fun _ => by
        rw [flatMap_length_const _ _ 2 (fun _ => by simp)]
        simp)
      (List.range (n + 1)) i (2 * j + 1) i (List.getElem?_range hi') (by omega)]
    rw [flatMap_getElem_opt (fun (j : Nat) => [(i : α) / (n : α), (j : α) / (n : α)]) 2
      (fun _ => by simp) (List.range (n + 1)) j 1 j (List.getElem?_range hj') (by decide)]
    rfl

/-- C18: for every resolution `n ≥ 1` and every cell `(i, j)` with `i, j < n`, the
six entries of `indices` at positions `6·(i·n + j) … 6·(i·n + j) + 5` are
`(topLeft, bottomLeft, topRight, topRight, bottomLeft, bottomRight)` with
`topLeft = i·(n+1) + j`, `topRight = topLeft + 1`, `bottomLeft = (i+1)·(n+1) + j`,
`bottomRight = bottomLeft + 1`; the two triangles share `topRight` and
`bottomLeft`, and each triangle has three pairwise distinct vertex indices. -/
theorem cell_triangles (sqrtf : α → α) (p : BezierPatch α) (n : Nat)
    (hres : p.resolution = (n : Int)) (hn : 1 ≤ n) (i j : Nat) (hi : i < n) (hj : j < n) :
    ((p.tessellate sqrtf).indices[6 * (i * n + j)]? = some ((i : Int) * (n + 1) + j) ∧
      (p.tessellate sqrtf).indices[6 * (i * n + j) + 1]? =
        some (((i : Int) + 1) * (n + 1) + j) ∧
      (p.tessellate sqrtf).indices[6 * (i * n + j) + 2]? =
        some ((i : Int) * (n + 1) + j + 1) ∧
      (p.tessellate sqrtf).indices[6 * (i * n + j) + 3]? =
        some ((i : Int) * (n + 1) + j + 1) ∧
      (p.tessellate sqrtf).indices[6 * (i * n + j) + 4]? =
        some (((i : Int) + 1) * (n + 1) + j) ∧
      (p.tessellate sqrtf).indices[6 * (i * n + j) + 5]? =
        some (((i : Int) + 1) * (n + 1) + j + 1)) ∧
    ((i : Int) * (n + 1) + j ≠ ((i : Int) + 1) * (n + 1) + j ∧
      ((i : Int) + 1) * (n + 1) + j ≠ (i : Int) * (n + 1) + j + 1 ∧
      (i : Int) * (n + 1) + j ≠ (i : Int) * (n + 1) + j + 1) ∧
    ((i : Int) * (n + 1) + j + 1 ≠ ((i : Int) + 1) * (n + 1) + j ∧
      ((i : Int) + 1) * (n + 1) + j ≠ ((i : Int) + 1) * (n + 1) + j + 1 ∧
      (i : Int) * (n + 1) + j + 1 ≠ ((i : Int) + 1) * (n + 1) + j + 1) := by
  have h0 := tessellate_indices_getElem sqrtf p n hres i j 0 hi hj (by decide)
  have h1 := tessellate_indices_getElem sqrtf p n hres i j 1 hi hj (by decide)
  have h2 := tessellate_indices_getElem sqrtf p n hres i j 2 hi hj (by decide)
  have h3 := tessellate_indices_getElem sqrtf p n hres i j 3 hi hj (by decide)
  have h4 := tessellate_indices_getElem sqrtf p n hres i j 4 hi hj (by decide)
  have h5 := tessellate_indices_getElem sqrtf p n hres i j 5 hi hj (by decide)
  have hrow : ((i : Int) + 1) * (n + 1) = (i : Int) * (n + 1) + (n + 1) := by ring
  have hn1 : (1 : Int) ≤ n := by exact_mod_cast hn
  refine ⟨⟨?_, ?_, ?_, ?_, ?_, ?_⟩, ⟨?_, ?_, ?_⟩, ⟨?_, ?_, ?_⟩⟩
  · rw [← Nat.add_zero (6 * (i * n + j)), h0]; rfl
  · rw [h1]; rfl
  · rw [h2]; rfl
  · rw [h3]; rfl
  · rw [h4]; rfl
  · rw [h5]; rfl
  all_goals
    try rw [hrow]
    generalize (i : Int) * ((n : Int) + 1) = a
    omega

/-- C18 at resolution 2 and the cell `(1, 0)`: its block starts at position 12
with `topLeft = 3` and `bottomLeft = 6`. -/
theorem cell_triangles_witness :
    (1 ≤ 2 ∧ 1 < 2 ∧ 0 < 2) ∧
    ((⟨flatControlPoints, [], [], [], [], 2⟩ : BezierPatch ℝ).tessellate
      Real.sqrt).indices[6 * (1 * 2 + 0)]? = some (((1 : Nat) : Int) * (((2 : Nat) : Int) + 1)
        + ((0 : Nat) : Int)) ∧
    ((⟨flatControlPoints, [], [], [], [], 2⟩ : BezierPatch ℝ).tessellate
      Real.sqrt).indices[6 * (1 * 2 + 0) + 1]? = some ((((1 : Nat) : Int) + 1) *
        (((2 : Nat) : Int) + 1) + ((0 : Nat) : Int)) :=
  ⟨by decide,
    (cell_triangles Real.sqrt (⟨flatControlPoints, [], [], [], [], 2⟩ : BezierPatch ℝ) 2 rfl
      (by decide) 1 0 (by decide) (by decide)).1.1,
    (cell_triangles Real.sqrt (⟨flatControlPoints, [], [], [], [], 2⟩ : BezierPatch ℝ) 2 rfl
      (by decide) 1 0 (by decide) (by decide)).1.2.1⟩

/-- C19: grid walk in row-major order.  For every resolution `n ≥ 1` and all
`i, j ≤ n`, with `k = i·(n+1) + j`, `u = i/n` and `v = j/n`, after `tessellate`
`vertices[k] = evaluate(u,v)`, `normals[k] = calculateNormal(u,v)`,
`texCoords[2k] = u` and `texCoords[2k+1] = v`; the first sample is taken at the
parameters `(0,0)` and the last, at position `(n+1)² - 1`, at `(1,1)`. -/
theorem grid_walk_row_major (sqrtf : α → α) (p : BezierPatch α) (n : Nat)
    (hres : p.resolution = (n : Int)) (hn : 1 ≤ n) (i j : Nat) (hi : i ≤ n) (hj : j ≤ n) :
    ((p.tessellate sqrtf).vertices[i * (n + 1) + j]? =
        some (p.evaluate ((i : α) / (n : α)) ((j : α) / (n : α))) ∧
      (p.tessellate sqrtf).normals[i * (n + 1) + j]? =
        some (p.calculateNormal sqrtf ((i : α) / (n : α)) ((j : α) / (n : α))) ∧
      (p.tessellate sqrtf).texCoords[2 * (i * (n + 1) + j)]? = some ((i : α) / (n : α)) ∧
      (p.tessellate sqrtf).texCoords[2 * (i * (n + 1) + j) + 1]? = some ((j : α) / (n : α))) ∧
    ((p.tessellate sqrtf).vertices[0]? = some (p.evaluate 0 0) ∧
      (p.tessellate sqrtf).normals[0]? = some (p.calculateNormal sqrtf 0 0) ∧
      (p.tessellate sqrtf).texCoords[0]? = some 0 ∧
      (p.tessellate sqrtf).texCoords[1]? = some 0) ∧
    ((p.tessellate sqrtf).vertices[(n + 1) * (n + 1) - 1]? = some (p.evaluate 1 1) ∧
      (p.tessellate sqrtf).normals[(n + 1) * (n + 1) - 1]? =
        some (p.calculateNormal sqrtf 1 1) ∧
      (p.tessellate sqrtf).texCoords[2 * ((n + 1) * (n + 1) - 1)]? = some 1 ∧
      (p.tessellate sqrtf).texCoords[2 * ((n + 1) * (n + 1) - 1) + 1]? = some 1) := by
  refine ⟨tessellate_samples_getElem sqrtf p n hres i j hi hj, ?_, ?_⟩
  · have h := tessellate_samples_getElem sqrtf p n hres 0 0 (Nat.zero_le n) (Nat.zero_le n)
    simpa [BezierPatch.evaluate, BezierPatch.calculateNormal] using h
  · have h := tessellate_samples_getElem sqrtf p n hres n n (le_refl n) (le_refl n)
    have hne : (n : α) ≠ 0 := by
      have : 0 < n := hn
      positivity
    have hlast : n * (n + 1) + n = (n + 1) * (n + 1) - 1 := by
      have : (n + 1) * (n + 1) = n * (n + 1) + n + 1 := by ring
      omega
    rw [hlast, div_self hne] at h
    exact h

/-- C19 at resolution 2 and the sample `(1, 2)`: it is vertex 5, taken at the
parameters `(1/2, 1)`. -/
theorem grid_walk_row_major_witness :
    (1 ≤ 2 ∧ 1 ≤ 2 ∧ 2 ≤ 2) ∧
    ((⟨flatControlPoints, [], [], [], [], 2⟩ : BezierPatch ℝ).tessellate
      Real.sqrt).texCoords[2 * (1 * (2 + 1) + 2)]? = some (((1 : Nat) : ℝ) / ((2 : Nat) : ℝ)) ∧
    ((⟨flatControlPoints, [], [], [], [], 2⟩ : BezierPatch ℝ).tessellate
      Real.sqrt).texCoords[2 * (1 * (2 + 1) + 2) + 1]? =
        some (((2 : Nat) : ℝ) / ((2 : Nat) : ℝ)) :=
  ⟨by decide,
    (grid_walk_row_major Real.sqrt (⟨flatControlPoints, [], [], [], [], 2⟩ : BezierPatch ℝ) 2
      rfl (by decide) 1 2 (by decide) (by decide)).1.2.2.1,
    (grid_walk_row_major Real.sqrt (⟨flatControlPoints, [], [], [], [], 2⟩ : BezierPatch ℝ) 2
      rfl (by decide) 1 2 (by decide) (by decide)).1.2.2.2⟩

end BufferOrder

end Main3_1

/-! ## The channels of the picking colour -/

namespace MainPart2

section Channels

/-- The three masks and shifts of the picking colour as quotients and remainders. -/
theorem pickingColor_nat_channels (n : Nat) :
    (n &&& 0xFF0000) >>> 16 = n / 65536 % 256 ∧ (n &&& 0x00FF00) >>> 8 = n / 256 % 256 ∧
      n &&& 0x0000FF = n % 256 := by
  have e3 : n &&& 0x0000FF = n % 256 := Nat.and_pow_two_sub_one_eq_mod n 8
  refine ⟨?_, ?_, e3⟩
  · apply Nat.eq_of_testBit_eq
    intro i
    have hm : (256 : Nat) = 2 ^ 8 := by norm_num
    have hd : (65536 : Nat) = 2 ^ 16 := by norm_num
    have e1 : (0xFF0000 : Nat) = (2 ^ 8 - 1) <<< 16 := by decide
    rw [hm, hd, e1, Nat.testBit_mod_two_pow, ← Nat.shiftRight_eq_div_pow]
    simp only [Nat.testBit_shiftRight, Nat.testBit_and, Nat.testBit_shiftLeft,
      Nat.testBit_two_pow_sub_one]
    have a1 : 16 + i - 16 = i := by omega
    by_cases hi : i < 8
    · cases hb : n.testBit (16 + i) <;> simp [hi, a1]
    · cases hb : n.testBit (16 + i) <;> simp [hi, a1]
  · apply Nat.eq_of_testBit_eq
    intro i
    have hm : (256 : Nat) = 2 ^ 8 := by norm_num
    have e2 : (0x00FF00 : Nat) = (2 ^ 8 - 1) <<< 8 := by decide
    rw [hm, e2, Nat.testBit_mod_two_pow, ← Nat.shiftRight_eq_div_pow]
    simp only [Nat.testBit_shiftRight, Nat.testBit_and, Nat.testBit_shiftLeft,
      Nat.testBit_two_pow_sub_one]
    have a1 : 8 + i - 8 = i := by omega
    by_cases hi : i < 8
    · cases hb : n.testBit (8 + i) <;> simp [hi, a1]
    · cases hb : n.testBit (8 + i) <;> simp [hi, a1]

/-- C20: for every non-negative `objectId` the picking colour computed by `render`
is `r = (objectId / 65536) mod 256` (bits 16–23), `g = (objectId / 256) mod 256`
(bits 8–15), `b = objectId mod 256` (bits 0–7); each lies in `[0, 255]`, so the
conversion to the unsigned bytes of `glColor3ub` changes none of them. -/
theorem pickingColor_channels (objectId : Int) (h : 0 ≤ objectId) :
    pickingColor objectId =
        (objectId / 65536 % 256, objectId / 256 % 256, objectId % 256) ∧
    (0 ≤ (pickingColor objectId).1 ∧ (pickingColor objectId).1 ≤ 255 ∧
      0 ≤ (pickingColor objectId).2.1 ∧ (pickingColor objectId).2.1 ≤ 255 ∧
      0 ≤ (pickingColor objectId).2.2 ∧ (pickingColor objectId).2.2 ≤ 255) ∧
    (((toGLubyte (pickingColor objectId).1).val : Int) = (pickingColor objectId).1 ∧
      ((toGLubyte (pickingColor objectId).2.1).val : Int) = (pickingColor objectId).2.1 ∧
      ((toGLubyte (pickingColor objectId).2.2).val : Int) = (pickingColor objectId).2.2) := by
  obtain ⟨n, rfl⟩ : ∃ n : Nat, objectId = (n : Int) := ⟨objectId.toNat, by omega⟩
  obtain ⟨c1, c2, c3⟩ := pickingColor_nat_channels n
  obtain ⟨b1, b2, b3⟩ := pickingColor_bytes n
  have hcol : pickingColor (n : Int) =
      ((n : Int) / 65536 % 256, (n : Int) / 256 % 256, (n : Int) % 256) := by
    rw [pickingColor_natCast, c1, c2, c3]
    push_cast
    rfl
  refine ⟨hcol, ?_, ?_⟩
  · rw [hcol]
    simp only []
    omega
  · rw [pickingColor_natCast]
    simp only []
    rw [toGLubyte_natCast _ b1, toGLubyte_natCast _ b2, toGLubyte_natCast _ b3]
    exact ⟨rfl, rfl, rfl⟩

/-- C20 at the identity `0x123456`: the channels are `0x12`, `0x34`, `0x56`. -/
theorem pickingColor_channels_witness :
    (0 : Int) ≤ 0x123456 ∧
      pickingColor 0x123456 = ((0x123456 : Int) / 65536 % 256, (0x123456 : Int) / 256 % 256,
        (0x123456 : Int) % 256) ∧
      ((0x123456 : Int) / 65536 % 256 = 0x12 ∧ (0x123456 : Int) / 256 % 256 = 0x34 ∧
        (0x123456 : Int) % 256 = 0x56) :=
  ⟨by decide, (pickingColor_channels 0x123456 (by decide)).1, by decide⟩

end Channels

end MainPart2

/-! ## The array reads of the cube's drawing loop -/

namespace MainPart2

section CubeIndices

variable {α : Type} [LinearOrderedField α]

/-- The index list that `generateGeometry` builds. -/
theorem generateGeometry_indices (m : MeshObject α) :
    m.generateGeometry.indices =
      [0, 1, 2, 2, 3, 0, 4, 5, 6, 6, 7, 4,
       0, 3, 7, 7, 4, 0, 1, 2, 6, 6, 5, 1,
       0, 1, 5, 5, 4, 0, 3, 2, 6, 6, 7, 3] := rfl

/-- Every one of the 36 cube indices is a vertex number, from 0 to 7. -/
theorem cube_index_range :
    ∀ i : Nat, i < 36 →
      0 ≤ ([0, 1, 2, 2, 3, 0, 4, 5, 6, 6, 7, 4,
            0, 3, 7, 7, 4, 0, 1, 2, 6, 6, 5, 1,
            0, 1, 5, 5, 4, 0, 3, 2, 6, 6, 7, 3] : List Int).getD i 0 ∧
        ([0, 1, 2, 2, 3, 0, 4, 5, 6, 6, 7, 4,
          0, 3, 7, 7, 4, 0, 1, 2, 6, 6, 5, 1,
          0, 1, 5, 5, 4, 0, 3, 2, 6, 6, 7, 3] : List Int).getD i 0 < 8 := by
  decide

/-- The first two entries of the normal list that `generateGeometry` builds are
both `(0, 0, -1)`. -/
theorem generateGeometry_normals_head (m : MeshObject α) :
    m.generateGeometry.normals.getD 0 ⟨0, 0, 0⟩ = ⟨0, 0, -1⟩ ∧
      m.generateGeometry.normals.getD 1 ⟨0, 0, 0⟩ = ⟨0, 0, -1⟩ ∧
      m.generateGeometry.normals.length = 24 ∧ m.generateGeometry.vertices.length = 8 ∧
      m.generateGeometry.indices.length = 36 :=
  ⟨rfl, rfl, rfl, rfl, rfl⟩

/-- For a cube index, `normalIndex` is `(i % 6) / 3`, that is 0 or 1, and
`vertexIndex` is the index itself. -/
theorem cube_draw_indices (m : MeshObject α) (i : Nat) (hi : i < 36) :
    m.generateGeometry.vertexIndex i = m.generateGeometry.indices.getD i 0 ∧
      m.generateGeometry.normalIndex i = (((i % 6) / 3 : Nat) : Int) ∧
      (0 ≤ m.generateGeometry.indices.getD i 0 ∧ m.generateGeometry.indices.getD i 0 < 8) ∧
      ((i % 6) / 3 = 0 ∨ (i % 6) / 3 = 1) := by
  have hr := cube_index_range i hi
  rw [← generateGeometry_indices m] at hr
  refine ⟨?_, ?_, hr, by omega⟩
  · exact Int.tmod_eq_of_lt hr.1 hr.2
  · have h0 : Int.tdiv (m.generateGeometry.indices.getD i 0) 8 = 0 :=
      Int.tdiv_eq_zero_of_lt hr.1 hr.2
    rw [MeshObject.normalIndex, h0]
    simp

/-- C21: for the cube built by `generateGeometry` and every position `i` in
`0..35` of its index list, `vertexIndex = indices[i] % 8` is in `[0,8)` and
`normalIndex = indices[i] / 8 * 4 + (i % 6) / 3` is in `[0,24)`, so both array
reads of `render` are in range; every cube index is below 8, so `normalIndex` is
0 or 1 and the normal read is `(0,0,-1)`: in lit mode every `glNormal3f` call of
`render` is `glNormal3f(0, 0, -1)`, whichever face the triangle belongs to. -/
theorem cube_render_reads (m : MeshObject α) (i : Nat) (hi : i < 36) :
    m.generateGeometry.indices.length = 36 ∧
    (0 ≤ m.generateGeometry.vertexIndex i ∧ m.generateGeometry.vertexIndex i < 8 ∧
      m.generateGeometry.vertexIndex i < (m.generateGeometry.vertices.length : Int)) ∧
    (0 ≤ m.generateGeometry.normalIndex i ∧ m.generateGeometry.normalIndex i < 24 ∧
      m.generateGeometry.normalIndex i < (m.generateGeometry.normals.length : Int)) ∧
    (m.generateGeometry.normalIndex i = 0 ∨ m.generateGeometry.normalIndex i = 1) ∧
    m.generateGeometry.normals.getD (m.generateGeometry.normalIndex i).toNat ⟨0, 0, 0⟩ =
      ⟨0, 0, -1⟩ ∧
    (∃ v : Vertex α, m.generateGeometry.drawStep false i =
      [GLCmd.glNormal3f 0 0 (-1), GLCmd.glVertex3f v.x v.y v.z]) ∧
    (∀ x y z : α, GLCmd.glNormal3f x y z ∈ m.generateGeometry.render false →
      x = 0 ∧ y = 0 ∧ z = -1) := by
  obtain ⟨n0, n1, hnl, hvl, hil⟩ := generateGeometry_normals_head m
  have hnormal : ∀ k : Nat, k < 36 →
      m.generateGeometry.normals.getD (m.generateGeometry.normalIndex k).toNat ⟨0, 0, 0⟩ =
        ⟨0, 0, -1⟩ := by
    intro k hk
    obtain ⟨-, hni, -, h01⟩ := cube_draw_indices m k hk
    rw [hni, Int.toNat_natCast]
    rcases h01 with h | h
    · rw [h]; exact n0
    · rw [h]; exact n1
  obtain ⟨hvi, hni, hr, h01⟩ := cube_draw_indices m i hi
  refine ⟨hil, ?_, ?_, ?_, hnormal i hi, ?_, ?_⟩
  · rw [hvi, hvl]
    exact ⟨hr.1, hr.2, hr.2⟩
  · rw [hni, hnl]
    omega
  · rw [hni]
    omega
  · refine ⟨m.generateGeometry.vertices.getD (m.generateGeometry.vertexIndex i).toNat
      ⟨0, 0, 0⟩, ?_⟩
    simp only [MeshObject.drawStep, hnormal i hi]
    rfl
  · intro x y z hmem
    simp only [MeshObject.render, List.mem_append, List.mem_flatMap, List.mem_range, hil] at hmem
    simp only [Bool.false_eq_true, if_false, List.mem_cons, List.mem_singleton,
      List.not_mem_nil, or_false, false_or, reduceCtorEq] at hmem
    obtain ⟨k, hk, hcmd⟩ := hmem
    simp only [MeshObject.drawStep, hnormal k hk, Bool.false_eq_true, if_false,
      List.singleton_append, List.mem_cons, List.mem_singleton, GLCmd.glNormal3f.injEq,
      reduceCtorEq, or_false, List.not_mem_nil] at hcmd
    exact hcmd

/-- C21 at position 7, a corner of the face `z = +s`: the normal issued is still
`(0, 0, -1)`. -/
theorem cube_render_reads_witness :
    7 < 36 ∧
    (MeshObject.create (⟨0, 0, 0⟩ : Vertex ℚ) ⟨0, 1, 0⟩ 0x00FF00 (8 / 10)).normals.getD
      (MeshObject.normalIndex
        (MeshObject.create (⟨0, 0, 0⟩ : Vertex ℚ) ⟨0, 1, 0⟩ 0x00FF00 (8 / 10)) 7).toNat
      ⟨0, 0, 0⟩ = ⟨0, 0, -1⟩ :=
  ⟨by decide,
    (cube_render_reads
      ({ vertices := [], normals := [], indices := [], diffuseColor := ⟨0, 1, 0⟩,
         objectId := 0x00FF00, position := ⟨0, 0, 0⟩, scale := 8 / 10 } : MeshObject ℚ)
      7 (by decide)).2.2.2.2.1⟩

end CubeIndices

end MainPart2

/-! ## The identities that picking can return -/

namespace MainPart2

section LowBits

variable {α : Type} [LinearOrderedField α]

/-- The three bytes of the picking colour, shifted back into place, give the
low 24 bits of the number. -/
theorem byte_join_mod (n : Nat) :
    (((n &&& 0xFF0000) >>> 16) <<< 16 ||| ((n &&& 0x00FF00) >>> 8) <<< 8) |||
      (n &&& 0x0000FF) = n % 2 ^ 24 := by
  apply Nat.eq_of_testBit_eq
  intro i
  have e1 : (0xFF0000 : Nat) = (2 ^ 8 - 1) <<< 16 := by decide
  have e2 : (0x00FF00 : Nat) = (2 ^ 8 - 1) <<< 8 := by decide
  have e3 : (0x0000FF : Nat) = 2 ^ 8 - 1 := by decide
  rw [e1, e2, e3]
  simp only [Nat.testBit_or, Nat.testBit_shiftLeft, Nat.testBit_shiftRight, Nat.testBit_and,
    Nat.testBit_two_pow_sub_one, Nat.testBit_mod_two_pow]
  by_cases h24 : 24 ≤ i
  · have a1 : 16 + (i - 16) = i := by omega
    have a2 : 8 + (i - 8) = i := by omega
    have c1 : ¬ (i - 16 < 8) := by omega
    have c2 : ¬ (i - 8 < 8) := by omega
    have c3 : ¬ (i < 8) := by omega
    have c4 : ¬ (i < 24) := by omega
    simp [a1, a2, c1, c2, c3, c4]
  · have c4 : i < 24 := by omega
    by_cases h16 : 16 ≤ i
    · have a1 : 16 + (i - 16) = i := by omega
      have a2 : 8 + (i - 8) = i := by omega
      have c1 : i - 16 < 8 := by omega
      cases hb : n.testBit i <;> simp [a1, a2, h16, c1, c4, hb]
    · by_cases h8 : 8 ≤ i
      · have a2 : 8 + (i - 8) = i := by omega
        have c1 : i - 8 < 8 := by omega
        cases hb : n.testBit i <;> simp [a2, h8, h16, c1, c4, hb]
      · have c1 : i < 8 := by omega
        cases hb : n.testBit i <;> simp [h8, h16, c1, c4, hb]

/-- Every pixel decodes to a number from 0 to `0xFFFFFF`. -/
theorem decodeId_range (px : Pixel) : 0 ≤ decodeId px ∧ decodeId px ≤ 0xFFFFFF := by
  rw [decodeId_eq]
  have hr : px.r.val <<< 16 < 2 ^ 24 := by
    have := px.r.isLt
    rw [Nat.shiftLeft_eq]
    omega
  have hg : px.g.val <<< 8 < 2 ^ 24 := by
    have := px.g.isLt
    rw [Nat.shiftLeft_eq]
    omega
  have hb : px.b.val < 2 ^ 24 := by
    have := px.b.isLt
    omega
  have h := Nat.or_lt_two_pow (Nat.or_lt_two_pow hr hg) hb
  constructor
  · exact Int.natCast_nonneg _
  · have h' : (px.r.val <<< 16 ||| px.g.val <<< 8 ||| px.b.val) ≤ 0xFFFFFF := by
      have : (2 : Nat) ^ 24 = 0xFFFFFF + 1 := by norm_num
      omega
    exact_mod_cast h'

/-- An index returned by `pickObject` holds an object whose identity is the
non-zero identity decoded from the pixel read back. -/
theorem pickObject_returns (ps : PickingSystem) (glReadPixels : Int → Int → Pixel)
    (mouseX mouseY : Int) (objects : List (MeshObject α)) (i : Nat)
    (hi : ps.pickObject glReadPixels mouseX mouseY objects = (i : Int)) :
    ∃ obj, objects[i]? = some obj ∧
      obj.objectId = decodeId (glReadPixels mouseX (ps.windowHeight - mouseY - 1)) ∧
      decodeId (glReadPixels mouseX (ps.windowHeight - mouseY - 1)) ≠ 0 := by
  simp only [PickingSystem.pickObject] at hi
  by_cases hfound : decodeId (glReadPixels mouseX (ps.windowHeight - mouseY - 1)) ≠ 0 ∧
      ∃ o ∈ objects, o.objectId = decodeId (glReadPixels mouseX (ps.windowHeight - mouseY - 1))
  · obtain ⟨i', -, hres, ⟨o, hget, hoid⟩, -⟩ := pickSearch_found _ hfound.1 objects 0 hfound.2
    rw [hres] at hi
    have : i' = i := by omega
    subst this
    exact ⟨o, hget, hoid, hfound.1⟩
  · have hnone := pickSearch_none
      (decodeId (glReadPixels mouseX (ps.windowHeight - mouseY - 1))) objects 0
      (by
        by_cases hz : decodeId (glReadPixels mouseX (ps.windowHeight - mouseY - 1)) = 0
        · exact Or.inl hz
        · exact Or.inr (fun o ho hoid => hfound ⟨hz, o, ho, hoid⟩))
    rw [hnone] at hi
    omega

/-- C22: the identity encoding keeps only the low 24 bits.  For every
non-negative `k`, decoding the picking colour of `k` gives `k mod 2^24`; any index
that `pickObject` returns holds an object with `1 ≤ objectId ≤ 0xFFFFFF`; so an
object whose identity is `≥ 2^24` or negative is never returned, not even when
the pixel read back is that object's own picking colour. -/
theorem picking_keeps_low_bits (k : Int) (hk : 0 ≤ k) (ps : PickingSystem)
    (glReadPixels : Int → Int → Pixel) (mouseX mouseY : Int)
    (objects : List (MeshObject α)) :
    decodeId (pickingPixel k) = k % 16777216 ∧
    (∀ i : Nat, ps.pickObject glReadPixels mouseX mouseY objects = (i : Int) →
      ∃ obj, objects[i]? = some obj ∧ 1 ≤ obj.objectId ∧ obj.objectId ≤ 0xFFFFFF) ∧
    (∀ (i : Nat) (obj : MeshObject α), objects[i]? = some obj →
      (16777216 ≤ obj.objectId ∨ obj.objectId < 0) →
      ps.pickObject glReadPixels mouseX mouseY objects ≠ (i : Int)) ∧
    (∀ (i : Nat) (obj : MeshObject α), objects[i]? = some obj →
      (16777216 ≤ obj.objectId ∨ obj.objectId < 0) →
      glReadPixels mouseX (ps.windowHeight - mouseY - 1) = pickingPixel obj.objectId →
      ps.pickObject glReadPixels mouseX mouseY objects ≠ (i : Int)) := by
  have hrange : ∀ i : Nat, ps.pickObject glReadPixels mouseX mouseY objects = (i : Int) →
      ∃ obj, objects[i]? = some obj ∧ 1 ≤ obj.objectId ∧ obj.objectId ≤ 0xFFFFFF := by
    intro i hi
    obtain ⟨obj, hget, hoid, hne⟩ := pickObject_returns ps glReadPixels mouseX mouseY objects i hi
    obtain ⟨h0, h1⟩ := decodeId_range (glReadPixels mouseX (ps.windowHeight - mouseY - 1))
    refine ⟨obj, hget, ?_, ?_⟩
    · rw [hoid]; omega
    · rw [hoid]; exact h1
  have hnever : ∀ (i : Nat) (obj : MeshObject α), objects[i]? = some obj →
      (16777216 ≤ obj.objectId ∨ obj.objectId < 0) →
      ps.pickObject glReadPixels mouseX mouseY objects ≠ (i : Int) := by
    intro i obj hget hout hi
    obtain ⟨obj', hget', h1, h2⟩ := hrange i hi
    rw [hget] at hget'
    have : obj = obj' := Option.some.inj hget'
    subst this
    omega
  refine ⟨?_, hrange, hnever, fun i obj hget hout _ => hnever i obj hget hout⟩
  obtain ⟨n, rfl⟩ : ∃ n : Nat, k = (n : Int) := ⟨k.toNat, by omega⟩
  obtain ⟨b1, b2, b3⟩ := pickingColor_bytes n
  rw [decodeId_eq]
  simp only [pickingPixel, pickingColor_natCast]
  rw [toGLubyte_natCast _ b1, toGLubyte_natCast _ b2, toGLubyte_natCast _ b3, byte_join_mod]
  push_cast
  rfl

/-- C22 at the identity `0x1000001`: its picking colour decodes to 1, and a scene
holding only this object returns no index even at a pixel of its own colour. -/
theorem picking_keeps_low_bits_witness :
    (0 : Int) ≤ 0x1000001 ∧
    decodeId (pickingPixel 0x1000001) = (0x1000001 : Int) % 16777216 ∧
    PickingSystem.init.pickObject (fun _ _ => pickingPixel 0x1000001) 400 300
      ([MeshObject.create ⟨0, 0, 0⟩ ⟨1, 0, 0⟩ 0x1000001 1] : List (MeshObject ℚ)) ≠
        ((0 : Nat) : Int) :=
  ⟨by decide,
    (picking_keeps_low_bits 0x1000001 (by decide) PickingSystem.init
      (fun _ _ => pickingPixel 0x1000001) 400 300
      ([MeshObject.create ⟨0, 0, 0⟩ ⟨1, 0, 0⟩ 0x1000001 1] : List (MeshObject ℚ))).1,
    (picking_keeps_low_bits 0x1000001 (by decide) PickingSystem.init
      (fun _ _ => pickingPixel 0x1000001) 400 300
      ([MeshObject.create ⟨0, 0, 0⟩ ⟨1, 0, 0⟩ 0x1000001 1] : List (MeshObject ℚ))).2.2.2
      0 (MeshObject.create ⟨0, 0, 0⟩ ⟨1, 0, 0⟩ 0x1000001 1) rfl (Or.inl (by decide)) rfl⟩

end LowBits

end MainPart2
